import Mathlib

/-!
Verification of the cairo-vm.go instruction-processing core.

The Go sources under verification are `pkg/vm/memory/memory.go` (write-once
segmented memory) and the VM step engine (`vm_core.go`: operand
computation/deduction, opcode assertions, register updates, trace
relocation).  Pure Go functions are translated into Lean functions;
mutation of the `VirtualMachine` is made explicit by returning the updated
state alongside the outcome.  Go `uint` (64-bit) arithmetic that can wrap
is written with an explicit `% 2 ^ 64`; Go nil-pointer dereferences are
modelled by a distinguished `crash` outcome.  Types of the repository that
are not part of the sources at hand (field elements, relocatable values,
the run context address computation, the segment manager) are modelled
from the specification and marked as such in their doc comments.
-/

/-- Prime modulus of the Cairo field, `2 ^ 251 + 17 * 2 ^ 192 + 1`. -/
def PRIME : Nat := 2 ^ 251 + 17 * 2 ^ 192 + 1

/-- Modelled from the spec: a felt is an element of the prime field with
modulus `PRIME`.  The Go implementation (lambdaworks FFI) is not part of
the sources; the algebraic API (add, sub, mul, div via inverse, zero, one,
is-zero) is the one the spec assumes. -/
abbrev Felt := ZMod PRIME

/-- Division on felts, as multiplication by the modular inverse. -/
def Felt.Div (a b : Felt) : Felt := a * b⁻¹

/-- Zero test on felts, mirroring `Felt.IsZero`. -/
def Felt.IsZero (a : Felt) : Bool := a = 0

/-- Modelled from the spec: an address `(segment_index : i64, offset : u64)`.
Field names follow the Go struct. -/
structure Relocatable where
  SegmentIndex : Int
  Offset : Nat
deriving DecidableEq

/-- Modelled from the spec: a value is either a field element or a
relocatable address. -/
inductive MaybeRelocatable where
  | felt : Felt → MaybeRelocatable
  | rel : Relocatable → MaybeRelocatable
deriving DecidableEq

/-- Mirrors `NewMaybeRelocatableFelt`. -/
def NewMaybeRelocatableFelt (f : Felt) : MaybeRelocatable := .felt f

/-- Mirrors `NewMaybeRelocatableRelocatable`. -/
def NewMaybeRelocatableRelocatable (r : Relocatable) : MaybeRelocatable := .rel r

/-- Modelled from the spec: `GetFelt` returns the felt payload and a flag,
as the Go relocatable.go accessor does.  The failing case carries the Go
zero value. -/
def MaybeRelocatable.GetFelt : MaybeRelocatable → Felt × Bool
  | .felt f => (f, true)
  | .rel _ => (0, false)

/-- Modelled from the spec: `GetRelocatable` returns the address payload
and a flag; the failing case carries the Go zero value `(0, 0)`. -/
def MaybeRelocatable.GetRelocatable : MaybeRelocatable → Relocatable × Bool
  | .rel r => (r, true)
  | .felt _ => (⟨0, 0⟩, false)

/-- Modelled from the spec: equality of two values (tag and payload). -/
def MaybeRelocatable.IsEqual (a b : MaybeRelocatable) : Bool := a = b

/-- Modelled from the spec: equality of two addresses. -/
def Relocatable.IsEqual (a b : Relocatable) : Bool := a = b

/-- Modelled from the spec: a value is zero when it is the zero felt; a
relocatable is never zero. -/
def MaybeRelocatable.IsZero : MaybeRelocatable → Bool
  | .felt f => f.IsZero
  | .rel _ => false

/-- Modelled from the spec: `Relocatable.AddUint` adds an unsigned machine
integer to the offset, with a u64-range overflow check
(`OffsetOverflow`). -/
def Relocatable.AddUint (r : Relocatable) (n : Nat) : Except String Relocatable :=
  if r.Offset + n < 2 ^ 64 then .ok ⟨r.SegmentIndex, r.Offset + n⟩
  else .error "OffsetOverflow"

/-- Modelled from the spec: addition of a signed 16-bit instruction offset
to an address, with u64-range checks on the offset field. -/
def Relocatable.AddInt (r : Relocatable) (n : Int) : Except String Relocatable :=
  if 0 ≤ (r.Offset : Int) + n ∧ (r.Offset : Int) + n < 2 ^ 64 then
    .ok ⟨r.SegmentIndex, ((r.Offset : Int) + n).toNat⟩
  else .error "OffsetOverflow"

/-- Modelled from the spec: addition of a felt to an address is defined
only when the felt fits in u64 semantics and does not wrap the offset. -/
def Relocatable.AddFelt (r : Relocatable) (f : Felt) : Except String Relocatable :=
  if r.Offset + f.val < 2 ^ 64 then .ok ⟨r.SegmentIndex, r.Offset + f.val⟩
  else .error "OffsetOverflow"

/-- Modelled from the spec: `rel + felt` is an address, `rel + rel` is an
error. -/
def Relocatable.AddMaybeRelocatable (r : Relocatable) :
    MaybeRelocatable → Except String Relocatable
  | .felt f => r.AddFelt f
  | .rel _ => .error "RelocatableAdd"

/-- Modelled from the spec: `Add` on values — `felt + felt` is a felt,
`rel + felt` is a relocatable, any other combination errors. -/
def MaybeRelocatable.Add : MaybeRelocatable → MaybeRelocatable →
    Except String MaybeRelocatable
  | .felt a, .felt b => .ok (.felt (a + b))
  | .rel r, .felt f => (r.AddFelt f).map .rel
  | _, _ => .error "RelocatableAdd"

/-- Modelled from the spec: `Sub` on values — `rel - rel` within one
segment is the felt difference of offsets, `rel - felt` moves the offset
down (u64 checked), `felt - felt` is a felt, `felt - rel` errors. -/
def MaybeRelocatable.Sub : MaybeRelocatable → MaybeRelocatable →
    Except String MaybeRelocatable
  | .felt a, .felt b => .ok (.felt (a - b))
  | .rel a, .rel b =>
    if a.SegmentIndex = b.SegmentIndex then
      .ok (.felt ((a.Offset : Felt) - (b.Offset : Felt)))
    else .error "RelocatableSub"
  | .rel a, .felt f =>
    if f.val ≤ a.Offset then .ok (.rel ⟨a.SegmentIndex, a.Offset - f.val⟩)
    else .error "OffsetOverflow"
  | .felt _, .rel _ => .error "RelocatableSub"

/-- Association-list read, mirroring a Go map read. -/
def assocGet {α β : Type} [DecidableEq α] : List (α × β) → α → Option β
  | [], _ => none
  | (k, v) :: t, a => if k = a then some v else assocGet t a

/-- Association-list write, mirroring a Go map write. -/
def assocSet {α β : Type} [DecidableEq α] : List (α × β) → α → β → List (α × β)
  | [], a, b => [(a, b)]
  | (k, v) :: t, a, b => if k = a then (a, b) :: t else (k, v) :: assocSet t a b

/-- Read-only view of the memory handed to a validation rule: the stored
data, the segment count and the validated-address set.  (The Go rule
receives the full `*Memory`; the rule table itself, being a table of
functions, is not observable by a rule in any way this model tracks.) -/
structure MemView where
  data : List (Relocatable × MaybeRelocatable)
  num_segments : Nat
  validated_addresses : List Relocatable

/-- Mirrors the Go `ValidationRule` type: a function that validates a
memory address and returns a list of validated addresses. -/
def ValidationRule :=
  MemView → Relocatable → Except String (List Relocatable)

/-- Mirrors the Go `Memory` struct: data map, segment count, per-segment
validation rules and the set of already validated addresses. -/
structure Memory where
  data : List (Relocatable × MaybeRelocatable)
  num_segments : Nat
  validation_rules : List (Nat × ValidationRule)
  validated_addresses : List Relocatable

/-- View of a memory as seen by a validation rule. -/
def Memory.toView (m : Memory) : MemView :=
  ⟨m.data, m.num_segments, m.validated_addresses⟩

/-- Mirrors `NewMemory` (zero segments, empty data, no rules). -/
def NewMemory : Memory := ⟨[], 0, [], []⟩

/-- Mirrors `Memory.validateAddress`: skip for temporary or already
validated addresses; otherwise apply the segment's rule, if any, and add
the returned addresses to the validated set. -/
def Memory.validateAddress (m : Memory) (addr : Relocatable) :
    Memory × Option String :=
  if addr.SegmentIndex < 0 ∨ addr ∈ m.validated_addresses then (m, none)
  else
    match assocGet m.validation_rules addr.SegmentIndex.toNat with
    | none => (m, none)
    | some rule =>
      match rule m.toView addr with
      | .error e => (m, some e)
      | .ok addrs =>
        ({ m with validated_addresses := m.validated_addresses ++ addrs }, none)

/-- Mirrors `Memory.Insert`: reject negative segments and unallocated
segments, reject overwrites with a different value, otherwise store the
value and validate the address. -/
def Memory.Insert (m : Memory) (addr : Relocatable) (val : MaybeRelocatable) :
    Memory × Option String :=
  if addr.SegmentIndex < 0 then
    (m, some "Segment index of key is negative - unimplemented")
  else if (m.num_segments : Int) ≤ addr.SegmentIndex then
    (m, some "Error: Inserting into a non allocated segment")
  else
    match assocGet m.data addr with
    | some prev =>
      if prev ≠ val then
        (m, some "Memory is write-once, cannot overwrite memory value")
      else Memory.validateAddress { m with data := assocSet m.data addr val } addr
    | none => Memory.validateAddress { m with data := assocSet m.data addr val } addr

/-- Mirrors `Memory.Get`: negative segments error, otherwise return the
stored value or a not-found error.  The Go method performs no mutation, so
it is a pure function here. -/
def Memory.Get (m : Memory) (addr : Relocatable) : Except String MaybeRelocatable :=
  if addr.SegmentIndex < 0 then
    .error "Segment index of key is negative - unimplemented"
  else
    match assocGet m.data addr with
    | some v => .ok v
    | none => .error "Memory Get: Value not found"

/-- Mirrors `Memory.AddValidationRule`. -/
def Memory.AddValidationRule (m : Memory) (segment_index : Nat)
    (rule : ValidationRule) : Memory :=
  { m with validation_rules := assocSet m.validation_rules segment_index rule }

section MemoryLemmas

theorem assocGet_assocSet_self {α β : Type} [DecidableEq α]
    (l : List (α × β)) (a : α) (b : β) : assocGet (assocSet l a b) a = some b := by
  induction l with
  | nil => simp [assocGet, assocSet]
  | cons h t ih =>
    obtain ⟨k, v⟩ := h
    by_cases hk : k = a
    · simp [assocGet, assocSet, hk]
    · simp [assocGet, assocSet, hk, ih]

theorem assocGet_assocSet_other {α β : Type} [DecidableEq α]
    (l : List (α × β)) (a c : α) (b : β) (hne : c ≠ a) :
    assocGet (assocSet l a b) c = assocGet l c := by
  induction l with
  | nil => simp [assocGet, assocSet, Ne.symm hne]
  | cons h t ih =>
    obtain ⟨k, v⟩ := h
    by_cases hk : k = a
    · subst hk
      simp [assocGet, assocSet, Ne.symm hne]
    · simp only [assocSet, if_neg hk, assocGet]
      by_cases hc : k = c <;> simp [hc, ih]

theorem assocSet_same {α β : Type} [DecidableEq α]
    (l : List (α × β)) (a : α) (b : β) (h : assocGet l a = some b) :
    assocSet l a b = l := by
  induction l with
  | nil => simp [assocGet] at h
  | cons hd t ih =>
    obtain ⟨k, v⟩ := hd
    by_cases hk : k = a
    · subst hk
      simp only [assocGet, if_pos rfl] at h
      injection h with h
      simp [assocSet, h]
    · simp only [assocGet, if_neg hk] at h
      simp [assocSet, hk, ih h]

/-- Validation never changes the stored data nor the segment count. -/
theorem validateAddress_data (m : Memory) (addr : Relocatable) :
    (m.validateAddress addr).1.data = m.data ∧
    (m.validateAddress addr).1.num_segments = m.num_segments := by
  unfold Memory.validateAddress
  split
  · exact ⟨rfl, rfl⟩
  · split
    · exact ⟨rfl, rfl⟩
    · split
      · exact ⟨rfl, rfl⟩
      · exact ⟨rfl, rfl⟩

end MemoryLemmas

/-- A successful insert at an address within bounds and not previously
occupied stores the value; validation does not disturb the data. -/
theorem Insert_data_of_none (m : Memory) (addr : Relocatable) (v : MaybeRelocatable)
    (h0 : ¬ addr.SegmentIndex < 0) (h1 : ¬ (m.num_segments : Int) ≤ addr.SegmentIndex)
    (h2 : assocGet m.data addr = none) :
    (m.Insert addr v).1.data = assocSet m.data addr v ∧
    (m.Insert addr v).1.num_segments = m.num_segments := by
  unfold Memory.Insert
  rw [if_neg h0, if_neg h1, h2]
  exact validateAddress_data _ addr

/-- An insert never changes data stored at other addresses. -/
theorem Insert_data_other (m : Memory) (addr b : Relocatable) (v : MaybeRelocatable)
    (hne : b ≠ addr) :
    assocGet (m.Insert addr v).1.data b = assocGet m.data b := by
  unfold Memory.Insert
  split
  · rfl
  · split
    · rfl
    · split
      · split
        · rfl
        · rw [(validateAddress_data _ addr).1]
          exact assocGet_assocSet_other _ _ _ _ hne
      · rw [(validateAddress_data _ addr).1]
        exact assocGet_assocSet_other _ _ _ _ hne

/-- An insert preserves the segment count. -/
theorem Insert_num_segments (m : Memory) (addr : Relocatable) (v : MaybeRelocatable) :
    (m.Insert addr v).1.num_segments = m.num_segments := by
  unfold Memory.Insert
  split
  · rfl
  · split
    · rfl
    · split
      · split
        · rfl
        · exact (validateAddress_data _ addr).2
      · exact (validateAddress_data _ addr).2

/-- Characterizes a successful get at a non-temporary address. -/
theorem Get_eq_ok (m : Memory) (addr : Relocatable) (v : MaybeRelocatable)
    (h : ¬ addr.SegmentIndex < 0) :
    m.Get addr = .ok v ↔ assocGet m.data addr = some v := by
  unfold Memory.Get
  rw [if_neg h]
  constructor
  · intro hg
    cases hl : assocGet m.data addr with
    | none => rw [hl] at hg; exact absurd hg (by simp)
    | some w => rw [hl] at hg; simp at hg; rw [hg]
  · intro hl; rw [hl]

/-- A failing get at a non-temporary address means the cell is absent. -/
theorem Get_err_none (m : Memory) (addr : Relocatable)
    (h : ¬ addr.SegmentIndex < 0) (hg : ∀ v, m.Get addr ≠ .ok v) :
    assocGet m.data addr = none := by
  cases hl : assocGet m.data addr with
  | none => rfl
  | some w => exact absurd ((Get_eq_ok m addr w h).2 hl) (hg w)

/-- Modelled from the spec: destination / op0 register selector. -/
inductive Register where
  | AP
  | FP
deriving DecidableEq

/-- Modelled from the spec: op1 addressing mode. -/
inductive Op1Src where
  | Op1SrcImm
  | Op1SrcAP
  | Op1SrcFP
  | Op1SrcOp0
deriving DecidableEq

/-- Modelled from the spec: res computation logic. -/
inductive ResLogic where
  | ResOp1
  | ResAdd
  | ResMul
  | ResUnconstrained
deriving DecidableEq

/-- Modelled from the spec: pc update rule. -/
inductive PcUpdate where
  | PcUpdateRegular
  | PcUpdateJump
  | PcUpdateJumpRel
  | PcUpdateJnz
deriving DecidableEq

/-- Modelled from the spec: ap update rule. -/
inductive ApUpdate where
  | ApUpdateRegular
  | ApUpdateAdd
  | ApUpdateAdd1
  | ApUpdateAdd2
deriving DecidableEq

/-- Modelled from the spec: fp update rule, derived from the opcode by the
decoder (`CALL` gives `AP_PLUS_2`, `RET` gives `DST`, else regular). -/
inductive FpUpdate where
  | FpUpdateRegular
  | FpUpdateAPPlus2
  | FpUpdateDst
deriving DecidableEq

/-- Modelled from the spec: instruction opcode. -/
inductive Opcode where
  | NOp
  | AssertEq
  | Call
  | Ret
deriving DecidableEq

/-- Modelled from the spec: a decoded instruction.  Offsets are the
recovered signed 16-bit values. -/
structure Instruction where
  Off0 : Int
  Off1 : Int
  Off2 : Int
  DstReg : Register
  Op0Reg : Register
  Op1Addr : Op1Src
  ResLogic : ResLogic
  PcUpdate : PcUpdate
  ApUpdate : ApUpdate
  FpUpdate : FpUpdate
  Opcode : Opcode
deriving DecidableEq

/-- Modelled from the spec: an instruction occupies two words when op1 is
immediate, otherwise one. -/
def Instruction.Size (i : Instruction) : Nat :=
  match i.Op1Addr with
  | .Op1SrcImm => 2
  | _ => 1

/-- Mirrors the Go `RunContext`: the three registers. -/
structure RunContext where
  Pc : Relocatable
  Ap : Relocatable
  Fp : Relocatable
deriving DecidableEq

/-- Modelled from the spec: `dst_addr` is `(dst_register == AP ? ap : fp) +
off0`, with u64-range checks. -/
def RunContext.ComputeDstAddr (ctx : RunContext) (i : Instruction) :
    Except String Relocatable :=
  match i.DstReg with
  | .AP => ctx.Ap.AddInt i.Off0
  | .FP => ctx.Fp.AddInt i.Off0

/-- Modelled from the spec: `op0_addr` is `(op0_register == AP ? ap : fp) +
off1`. -/
def RunContext.ComputeOp0Addr (ctx : RunContext) (i : Instruction) :
    Except String Relocatable :=
  match i.Op0Reg with
  | .AP => ctx.Ap.AddInt i.Off1
  | .FP => ctx.Fp.AddInt i.Off1

/-- Modelled from the spec: `op1_addr` per mode — immediate (`pc + off2`,
`off2` must be 1), ap- or fp-relative, or indirect through an op0 value
that must be a relocatable. -/
def RunContext.ComputeOp1Addr (ctx : RunContext) (i : Instruction)
    (op0 : Option MaybeRelocatable) : Except String Relocatable :=
  match i.Op1Addr with
  | .Op1SrcImm =>
    if i.Off2 = 1 then ctx.Pc.AddInt i.Off2 else .error "ImmShouldBe1"
  | .Op1SrcAP => ctx.Ap.AddInt i.Off2
  | .Op1SrcFP => ctx.Fp.AddInt i.Off2
  | .Op1SrcOp0 =>
    match op0 with
    | none => .error "UnknownOp0"
    | some v =>
      match v with
      | .rel r => r.AddInt i.Off2
      | .felt _ => .error "AddressNotRelocatable"

/-- Outcome of running a Go function that may return an error or hit a
runtime fault (nil-pointer dereference, out-of-range slice index). -/
inductive Outcome (α : Type) where
  | ok : α → Outcome α
  | err : String → Outcome α
  | crash : Outcome α
deriving DecidableEq

/-- Mirrors the Go `TraceEntry`: a register snapshot. -/
structure TraceEntry where
  Pc : Relocatable
  Ap : Relocatable
  Fp : Relocatable
deriving DecidableEq

/-- Mirrors the Go `RelocatedTraceEntry`. -/
structure RelocatedTraceEntry where
  Pc : Felt
  Ap : Felt
  Fp : Felt
deriving DecidableEq

/-- Mirrors the Go `BuiltinRunner` interface, restricted to the two
capabilities the step engine consumes: the base segment and the
deduce-memory-cell hook. -/
structure BuiltinRunner where
  Base : Relocatable
  DeduceMemoryCell : Relocatable → Memory → Except String (Option MaybeRelocatable)

/-- Modelled from the spec: the segment manager holds the memory and,
once computed, the effective segment sizes. -/
structure MemorySegmentManager where
  SegmentUsedSizes : Option (List Nat)
  Memory : Memory

/-- Mirrors the Go `VirtualMachine` struct. -/
structure VirtualMachine where
  RunContext : RunContext
  CurrentStep : Nat
  Segments : MemorySegmentManager
  BuiltinRunners : List BuiltinRunner
  Trace : List TraceEntry
  RelocatedTrace : List RelocatedTraceEntry
  RelocatedMemory : List (Nat × Felt)

/-- Mirrors the Go `Operands` struct. -/
structure Operands where
  Dst : MaybeRelocatable
  Res : Option MaybeRelocatable
  Op0 : MaybeRelocatable
  Op1 : MaybeRelocatable
deriving DecidableEq

/-- Replaces the VM's memory (the Go code mutates it in place). -/
def VirtualMachine.withMemory (vm : VirtualMachine) (m : Memory) : VirtualMachine :=
  { vm with Segments := { vm.Segments with Memory := m } }

/-- Sets the pc register. -/
def VirtualMachine.setPc (vm : VirtualMachine) (r : Relocatable) : VirtualMachine :=
  { vm with RunContext := { vm.RunContext with Pc := r } }

/-- Sets the ap register. -/
def VirtualMachine.setAp (vm : VirtualMachine) (r : Relocatable) : VirtualMachine :=
  { vm with RunContext := { vm.RunContext with Ap := r } }

/-- Sets the fp register. -/
def VirtualMachine.setFp (vm : VirtualMachine) (r : Relocatable) : VirtualMachine :=
  { vm with RunContext := { vm.RunContext with Fp := r } }

/-- Mirrors `VirtualMachine.DeduceMemoryCell`: no deduction for temporary
segments; otherwise the first builtin whose base segment matches the
address is consulted. -/
def VirtualMachine.DeduceMemoryCell (vm : VirtualMachine) (addr : Relocatable) :
    Except String (Option MaybeRelocatable) :=
  if addr.SegmentIndex < 0 then .ok none
  else
    match vm.BuiltinRunners.find? (fun b => b.Base.SegmentIndex == addr.SegmentIndex) with
    | some b => b.DeduceMemoryCell addr vm.Segments.Memory
    | none => .ok none

/-- Mirrors `VirtualMachine.DeduceOp0`: `CALL` deduces `pc + size` (raw
u64 offset addition in the source); `ASSERT_EQ` with `ADD` deduces
`dst - op1` (and res `dst`), with `MUL` deduces `dst / op1` when both are
felts and `op1` is nonzero. -/
def VirtualMachine.DeduceOp0 (vm : VirtualMachine) (i : Instruction)
    (dst op1 : Option MaybeRelocatable) :
    Except String (Option MaybeRelocatable × Option MaybeRelocatable) :=
  match i.Opcode with
  | .Call =>
    .ok (some (.rel ⟨vm.RunContext.Pc.SegmentIndex,
      (vm.RunContext.Pc.Offset + i.Size) % 2 ^ 64⟩), none)
  | .AssertEq =>
    match i.ResLogic with
    | .ResAdd =>
      match dst, op1 with
      | some d, some o =>
        match d.Sub o with
        | .error e => .error e
        | .ok r => .ok (some r, some d)
      | _, _ => .ok (none, none)
    | .ResMul =>
      match dst, op1 with
      | some d, some o =>
        let df := d.GetFelt
        let o1f := o.GetFelt
        if df.2 && o1f.2 && !o1f.1.IsZero then
          .ok (some (.felt (df.1.Div o1f.1)), some d)
        else .ok (none, none)
      | _, _ => .ok (none, none)
    | _ => .ok (none, none)
  | _ => .ok (none, none)

/-- Mirrors `VirtualMachine.DeduceOp1`.  The `MUL` branch of the source
calls `dst.GetFelt()` and `op0.GetFelt()` without nil checks, so a missing
`dst` or `op0` there is a nil-pointer dereference, modelled as `crash`. -/
def VirtualMachine.DeduceOp1 (vm : VirtualMachine) (i : Instruction)
    (dst op0 : Option MaybeRelocatable) :
    Outcome (Option MaybeRelocatable × Option MaybeRelocatable) :=
  if i.Opcode = .AssertEq then
    match i.ResLogic with
    | .ResOp1 => .ok (dst, dst)
    | .ResAdd =>
      match op0, dst with
      | some o, some d =>
        match d.Sub o with
        | .error e => .err e
        | .ok r => .ok (some r, some d)
      | _, _ => .ok (none, none)
    | .ResMul =>
      match dst with
      | none => .crash
      | some d =>
        match op0 with
        | none => .crash
        | some o =>
          let df := d.GetFelt
          let o0f := o.GetFelt
          if df.2 && o0f.2 && !o0f.1.IsZero then
            .ok (some (.felt (df.1.Div o0f.1)), some d)
          else .ok (none, none)
    | _ => .ok (none, none)
  else .ok (none, none)

/-- Mirrors `VirtualMachine.DeduceDst`: `ASSERT_EQ` deduces `res`, `CALL`
deduces `fp`, anything else deduces nothing. -/
def VirtualMachine.DeduceDst (vm : VirtualMachine) (i : Instruction)
    (res : Option MaybeRelocatable) : Option MaybeRelocatable :=
  match i.Opcode with
  | .AssertEq => res
  | .Call => some (.rel vm.RunContext.Fp)
  | _ => none

/-- Mirrors `VirtualMachine.ComputeRes`. -/
def VirtualMachine.ComputeRes (vm : VirtualMachine) (i : Instruction)
    (op0 op1 : MaybeRelocatable) : Except String (Option MaybeRelocatable) :=
  match i.ResLogic with
  | .ResOp1 => .ok (some op1)
  | .ResAdd =>
    match op0.Add op1 with
    | .error e => .error e
    | .ok r => .ok (some r)
  | .ResMul =>
    let f0 := op0.GetFelt
    let f1 := op1.GetFelt
    if f0.2 && f1.2 then .ok (some (.felt (f0.1 * f1.1)))
    else .error "ComputeResRelocatableMul"
  | .ResUnconstrained => .ok none

/-- Mirrors `VirtualMachine.ComputeOp0Deductions`: builtin deduction
first, then algebraic deduction; the deduced operand is inserted with the
insert error discarded by the source. -/
def VirtualMachine.ComputeOp0Deductions (vm : VirtualMachine)
    (op0_addr : Relocatable) (i : Instruction)
    (dst op1 : Option MaybeRelocatable) :
    VirtualMachine × Outcome (MaybeRelocatable × Option MaybeRelocatable) :=
  match vm.DeduceMemoryCell op0_addr with
  | .error e => (vm, .err e)
  | .ok (some v) =>
    let p := vm.Segments.Memory.Insert op0_addr v
    (vm.withMemory p.1, .ok (v, none))
  | .ok none =>
    match vm.DeduceOp0 i dst op1 with
    | .error e => (vm, .err e)
    | .ok (some v, dres) =>
      let p := vm.Segments.Memory.Insert op0_addr v
      (vm.withMemory p.1, .ok (v, dres))
    | .ok (none, _) => (vm, .err "Failed to compute or deduce op0")

/-- Mirrors `VirtualMachine.ComputeOp1Deductions`: builtin deduction
first, then algebraic deduction; the deduced operand is inserted with the
insert error discarded by the source.  The res value deduced alongside op1
is assigned only to a local copy of the `res` parameter in the source and
is therefore lost to the caller. -/
def VirtualMachine.ComputeOp1Deductions (vm : VirtualMachine)
    (op1_addr : Relocatable) (i : Instruction)
    (dst op0 res : Option MaybeRelocatable) :
    VirtualMachine × Outcome MaybeRelocatable :=
  match vm.DeduceMemoryCell op1_addr with
  | .error e => (vm, .err e)
  | .ok (some v) =>
    let p := vm.Segments.Memory.Insert op1_addr v
    (vm.withMemory p.1, .ok v)
  | .ok none =>
    match vm.DeduceOp1 i dst op0 with
    | .err e => (vm, .err e)
    | .crash => (vm, .crash)
    | .ok (some v, _) =>
      let p := vm.Segments.Memory.Insert op1_addr v
      (vm.withMemory p.1, .ok v)
    | .ok (none, _) => (vm, .err "Failed to compute or deduce op1")

/-- Mirrors `VirtualMachine.ComputeOperands`.  Operand reads discard the
read error; deduced operands are inserted into memory; a dst that is still
missing after deduction is dereferenced as a nil pointer by the source
(`Operands{Dst: *dst, ...}`), modelled as `crash`. -/
def VirtualMachine.ComputeOperands (vm : VirtualMachine) (i : Instruction) :
    VirtualMachine × Outcome Operands :=
  match vm.RunContext.ComputeDstAddr i with
  | .error _ => (vm, .err "FailedToComputeDstAddr")
  | .ok dst_addr =>
    let dstRead := (vm.Segments.Memory.Get dst_addr).toOption
    match vm.RunContext.ComputeOp0Addr i with
    | .error e => (vm, .err (String.append "FailedToComputeOp0Addr: " e))
    | .ok op0_addr =>
      let op0Read := (vm.Segments.Memory.Get op0_addr).toOption
      match vm.RunContext.ComputeOp1Addr i op0Read with
      | .error e => (vm, .err (String.append "FailedToComputeOp1Addr: " e))
      | .ok op1_addr =>
        let op1Read := (vm.Segments.Memory.Get op1_addr).toOption
        match (match op0Read with
               | some v => (vm, Outcome.ok (v, (none : Option MaybeRelocatable)))
               | none => vm.ComputeOp0Deductions op0_addr i dstRead op1Read) with
        | (vm1, .err e) => (vm1, .err e)
        | (vm1, .crash) => (vm1, .crash)
        | (vm1, .ok (op0, res0)) =>
          match (match op1Read with
                 | some v => (vm1, Outcome.ok v)
                 | none => vm1.ComputeOp1Deductions op1_addr i dstRead op0Read res0) with
          | (vm2, .err e) => (vm2, .err e)
          | (vm2, .crash) => (vm2, .crash)
          | (vm2, .ok op1) =>
            match (match res0 with
                   | some r => Except.ok (some r)
                   | none => vm2.ComputeRes i op0 op1) with
            | .error e => (vm2, .err e)
            | .ok res1 =>
              match dstRead with
              | some d => (vm2, .ok ⟨d, res1, op0, op1⟩)
              | none =>
                match vm2.DeduceDst i res1 with
                | some d =>
                  let p := vm2.Segments.Memory.Insert dst_addr d
                  (vm2.withMemory p.1, .ok ⟨d, res1, op0, op1⟩)
                | none => (vm2, .crash)

/-- Mirrors `VirtualMachine.OpcodeAssertions`.  In the `CALL` branch the
source discards the ok flag of `Dst.GetRelocatable()`, so a felt dst is
compared against fp as the zero address. -/
def VirtualMachine.OpcodeAssertions (vm : VirtualMachine) (i : Instruction)
    (ops : Operands) : Outcome Unit :=
  match i.Opcode with
  | .AssertEq =>
    match ops.Res with
    | none => .err "UnconstrainedResAssertEq"
    | some r =>
      if r.IsEqual ops.Dst then .ok () else .err "DiffAssertValues"
  | .Call =>
    match vm.RunContext.Pc.AddUint i.Size with
    | .error e => .err e
    | .ok new_rel =>
      let returnPC := NewMaybeRelocatableRelocatable new_rel
      if ops.Op0.IsEqual returnPC then
        let dstRel := ops.Dst.GetRelocatable.1
        if (vm.RunContext.Fp).IsEqual dstRel then .ok ()
        else .err "CantWriteReturnFp"
      else .err "CantWriteReturnPc"
  | _ => .ok ()

/-- Mirrors `VirtualMachine.UpdatePc`. -/
def VirtualMachine.UpdatePc (vm : VirtualMachine) (i : Instruction)
    (ops : Operands) : VirtualMachine × Outcome Unit :=
  match i.PcUpdate with
  | .PcUpdateRegular =>
    (vm.setPc ⟨vm.RunContext.Pc.SegmentIndex,
      (vm.RunContext.Pc.Offset + i.Size) % 2 ^ 64⟩, .ok ())
  | .PcUpdateJump =>
    match ops.Res with
    | none => (vm, .err "Res.UNCONSTRAINED cannot be used with PcUpdate.JUMP")
    | some r =>
      let p := r.GetRelocatable
      if p.2 then (vm.setPc p.1, .ok ())
      else (vm, .err "an integer value as Res cannot be used with PcUpdate.JUMP")
  | .PcUpdateJumpRel =>
    match ops.Res with
    | none => (vm, .err "Res.UNCONSTRAINED cannot be used with PcUpdate.JUMP_REL")
    | some r =>
      let p := r.GetFelt
      if p.2 then
        match vm.RunContext.Pc.AddFelt p.1 with
        | .error e => (vm, .err e)
        | .ok new_pc => (vm.setPc new_pc, .ok ())
      else (vm, .err "a relocatable value as Res cannot be used with PcUpdate.JUMP_REL")
  | .PcUpdateJnz =>
    if ops.Dst.IsZero then
      (vm.setPc ⟨vm.RunContext.Pc.SegmentIndex,
        (vm.RunContext.Pc.Offset + i.Size) % 2 ^ 64⟩, .ok ())
    else
      match vm.RunContext.Pc.AddMaybeRelocatable ops.Op1 with
      | .error e => (vm, .err e)
      | .ok new_pc => (vm.setPc new_pc, .ok ())

/-- Mirrors `VirtualMachine.UpdateAp`. -/
def VirtualMachine.UpdateAp (vm : VirtualMachine) (i : Instruction)
    (ops : Operands) : VirtualMachine × Outcome Unit :=
  match i.ApUpdate with
  | .ApUpdateAdd =>
    match ops.Res with
    | none => (vm, .err "Res.UNCONSTRAINED cannot be used with ApUpdate.ADD")
    | some r =>
      match vm.RunContext.Ap.AddMaybeRelocatable r with
      | .error e => (vm, .err e)
      | .ok new_ap => (vm.setAp new_ap, .ok ())
  | .ApUpdateAdd1 =>
    (vm.setAp ⟨vm.RunContext.Ap.SegmentIndex,
      (vm.RunContext.Ap.Offset + 1) % 2 ^ 64⟩, .ok ())
  | .ApUpdateAdd2 =>
    (vm.setAp ⟨vm.RunContext.Ap.SegmentIndex,
      (vm.RunContext.Ap.Offset + 2) % 2 ^ 64⟩, .ok ())
  | .ApUpdateRegular => (vm, .ok ())

/-- Mirrors `VirtualMachine.UpdateFp`.  For `AP_PLUS_2` the source assigns
only the offset field (`Fp.Offset = Ap.Offset + 2`), leaving fp's segment
index untouched. -/
def VirtualMachine.UpdateFp (vm : VirtualMachine) (i : Instruction)
    (ops : Operands) : VirtualMachine × Outcome Unit :=
  match i.FpUpdate with
  | .FpUpdateAPPlus2 =>
    (vm.setFp ⟨vm.RunContext.Fp.SegmentIndex,
      (vm.RunContext.Ap.Offset + 2) % 2 ^ 64⟩, .ok ())
  | .FpUpdateDst =>
    let p := ops.Dst.GetRelocatable
    if p.2 then (vm.setFp p.1, .ok ())
    else
      let q := ops.Dst.GetFelt
      match vm.RunContext.Fp.AddFelt q.1 with
      | .error e => (vm, .err e)
      | .ok new_fp => (vm.setFp new_fp, .ok ())
  | .FpUpdateRegular => (vm, .ok ())

/-- Mirrors `VirtualMachine.UpdateRegisters`: fp, then ap, then pc,
stopping at the first error. -/
def VirtualMachine.UpdateRegisters (vm : VirtualMachine) (i : Instruction)
    (ops : Operands) : VirtualMachine × Outcome Unit :=
  match vm.UpdateFp i ops with
  | (vm1, .err e) => (vm1, .err e)
  | (vm1, .crash) => (vm1, .crash)
  | (vm1, .ok _) =>
    match vm1.UpdateAp i ops with
    | (vm2, .err e) => (vm2, .err e)
    | (vm2, .crash) => (vm2, .crash)
    | (vm2, .ok _) => vm2.UpdatePc i ops

/-- Modelled from the spec: `FeltFromUint64`, the embedding of a machine
integer into the field. -/
def FeltFromUint64 (n : Nat) : Felt := (n : Felt)

/-- Modelled from the spec: the relocated address of `(seg, off)` is
`T[seg] + off`.  The Go method indexes the relocation table without a
bounds check, so a segment outside the table is a runtime fault. -/
def Relocatable.RelocateAddress (r : Relocatable) (table : List Nat) : Outcome Nat :=
  if r.SegmentIndex < 0 then .crash
  else
    match table.get? r.SegmentIndex.toNat with
    | some base => .ok ((base + r.Offset) % 2 ^ 64)
    | none => .crash

/-- Relocates a list of trace entries, propagating a runtime fault. -/
def relocateEntries (entries : List TraceEntry) (table : List Nat) :
    Outcome (List RelocatedTraceEntry) :=
  match entries with
  | [] => .ok []
  | e :: t =>
    match e.Pc.RelocateAddress table, e.Ap.RelocateAddress table,
        e.Fp.RelocateAddress table with
    | .ok pc, .ok ap, .ok fp =>
      match relocateEntries t table with
      | .ok rest => .ok (⟨FeltFromUint64 pc, FeltFromUint64 ap, FeltFromUint64 fp⟩ :: rest)
      | _ => .crash
    | _, _, _ => .crash

/-- Mirrors `VirtualMachine.RelocateTrace`: fails when the relocation
table has fewer than two entries, otherwise appends the relocated form of
every trace entry. -/
def VirtualMachine.RelocateTrace (vm : VirtualMachine) (table : List Nat) :
    VirtualMachine × Outcome Unit :=
  if table.length < 2 then
    (vm, .err "no relocation found for execution segment")
  else
    match relocateEntries vm.Trace table with
    | .ok l => ({ vm with RelocatedTrace := vm.RelocatedTrace ++ l }, .ok ())
    | _ => (vm, .crash)

/-- Mirrors `VirtualMachine.GetRelocatedTrace`: the relocated trace when
it is non-empty, the trace-not-relocated error otherwise. -/
def VirtualMachine.GetRelocatedTrace (vm : VirtualMachine) :
    Except String (List RelocatedTraceEntry) :=
  if vm.RelocatedTrace.length > 0 then .ok vm.RelocatedTrace
  else .error "trace not relocated"

/-- Size of one segment: one plus the largest stored offset, zero for an
empty segment. -/
def segmentSize (idx : Nat) (data : List (Relocatable × MaybeRelocatable)) : Nat :=
  data.foldl
    (fun acc kv => if kv.1.SegmentIndex = (idx : Int) then max acc (kv.1.Offset + 1) else acc) 0

/-- Modelled from the spec: `compute_effective_sizes` records, for each
non-temporary segment, one plus the maximal stored offset. -/
def MemorySegmentManager.ComputeEffectiveSizes (s : MemorySegmentManager) :
    MemorySegmentManager :=
  let sizes := (List.range s.Memory.num_segments).map
    (fun idx => segmentSize idx s.Memory.data)
  { s with SegmentUsedSizes := some sizes }

/-- Builds the relocation table from a base and the segment sizes. -/
def relocTable (base : Nat) : List Nat → List Nat
  | [] => [base]
  | sz :: t => base :: relocTable (base + sz) t

/-- Modelled from the spec: `relocate_segments` produces the table `T`
with `T[0] = 1` and `T[i+1] = T[i] + size[i]`; it reports failure when the
effective sizes have not been computed. -/
def MemorySegmentManager.RelocateSegments (s : MemorySegmentManager) :
    Option (List Nat) :=
  match s.SegmentUsedSizes with
  | none => none
  | some sizes => some (relocTable 1 sizes)

/-- Relocates every memory cell into the flat address space. -/
def relocateMemCells (cells : List (Relocatable × MaybeRelocatable))
    (table : List Nat) : Except String (List (Nat × Felt)) :=
  match cells with
  | [] => .ok []
  | (a, v) :: t =>
    if a.SegmentIndex < 0 then .error "UnrelocatedMemory"
    else
      match table.get? a.SegmentIndex.toNat with
      | none => .error "UnrelocatedMemory"
      | some base =>
        let fval : Except String Felt :=
          match v with
          | .felt f => .ok f
          | .rel r =>
            if r.SegmentIndex < 0 then .error "UnrelocatedMemory"
            else
              match table.get? r.SegmentIndex.toNat with
              | none => .error "UnrelocatedMemory"
              | some vbase => .ok (FeltFromUint64 (vbase + r.Offset))
        match fval with
        | .error e => .error e
        | .ok f =>
          match relocateMemCells t table with
          | .error e => .error e
          | .ok rest => .ok ((base + a.Offset, f) :: rest)

/-- Modelled from the spec: `relocate_memory` converts every stored value
to a field element over the flat relocated address space. -/
def MemorySegmentManager.RelocateMemory (s : MemorySegmentManager)
    (table : List Nat) : Except String (List (Nat × Felt)) :=
  relocateMemCells s.Memory.data table

/-- Mirrors `VirtualMachine.Relocate`: compute effective sizes, return
early on an empty trace, then relocate memory and trace.  The error
returned by `RelocateTrace` is discarded by the source; a runtime fault
still propagates. -/
def VirtualMachine.Relocate (vm : VirtualMachine) : VirtualMachine × Outcome Unit :=
  let s1 := vm.Segments.ComputeEffectiveSizes
  let vm1 := { vm with Segments := s1 }
  if vm1.Trace = [] then (vm1, .ok ())
  else
    match s1.RelocateSegments with
    | none =>
      (vm1, .err "ComputeEffectiveSizes called but RelocateSegments still returned error")
    | some table =>
      match s1.RelocateMemory table with
      | .error e => (vm1, .err e)
      | .ok relocatedMemory =>
        match vm1.RelocateTrace table with
        | (vm2, .crash) => (vm2, .crash)
        | (vm2, _) => ({ vm2 with RelocatedMemory := relocatedMemory }, .ok ())

/-- Mirrors `VirtualMachine.RunInstruction`: compute operands, check the
opcode assertions, append the trace entry, update the registers, bump the
step counter. -/
def VirtualMachine.RunInstruction (vm : VirtualMachine) (i : Instruction) :
    VirtualMachine × Outcome Unit :=
  match vm.ComputeOperands i with
  | (vm1, .err e) => (vm1, .err e)
  | (vm1, .crash) => (vm1, .crash)
  | (vm1, .ok ops) =>
    match vm1.OpcodeAssertions i ops with
    | .err e => (vm1, .err e)
    | .crash => (vm1, .crash)
    | .ok _ =>
      let vm2 := { vm1 with Trace := vm1.Trace ++
        [TraceEntry.mk vm1.RunContext.Pc vm1.RunContext.Ap vm1.RunContext.Fp] }
      match vm2.UpdateRegisters i ops with
      | (vm3, .err e) => (vm3, .err e)
      | (vm3, .crash) => (vm3, .crash)
      | (vm3, .ok _) => ({ vm3 with CurrentStep := vm3.CurrentStep + 1 }, .ok ())

section ClaimBasics

/-- Facts available after a successful insert: the address was in range
and the value is now stored. -/
theorem Insert_success_facts (m : Memory) (addr : Relocatable) (v1 : MaybeRelocatable)
    (hsucc : (m.Insert addr v1).2 = none) :
    ¬ addr.SegmentIndex < 0 ∧ ¬ (m.num_segments : Int) ≤ addr.SegmentIndex ∧
    (m.Insert addr v1).1.data = assocSet m.data addr v1 ∧
    (m.Insert addr v1).1.num_segments = m.num_segments := by
  by_cases hneg : addr.SegmentIndex < 0
  · unfold Memory.Insert at hsucc
    rw [if_pos hneg] at hsucc
    exact absurd hsucc (by simp)
  · by_cases hnum : (m.num_segments : Int) ≤ addr.SegmentIndex
    · unfold Memory.Insert at hsucc
      rw [if_neg hneg, if_pos hnum] at hsucc
      exact absurd hsucc (by simp)
    · refine ⟨hneg, hnum, ?_⟩
      cases hl : assocGet m.data addr with
      | none =>
        have := Insert_data_of_none m addr v1 hneg hnum hl
        exact this
      | some prev =>
        unfold Memory.Insert at hsucc ⊢
        simp only [if_neg hneg, if_neg hnum, hl] at hsucc ⊢
        by_cases hp : prev ≠ v1
        · simp only [if_pos hp] at hsucc
          exact absurd hsucc (by simp)
        · simp only [if_neg hp] at hsucc ⊢
          exact ⟨(validateAddress_data _ addr).1, (validateAddress_data _ addr).2⟩

/-- Claim C10: Memory.Get errors on every negative segment index; for a
non-negative segment index it returns the stored value when present and a
not-found error otherwise; being a pure map read, it never changes the
memory. -/
theorem c10_memory_get (m : Memory) (addr : Relocatable) :
    (addr.SegmentIndex < 0 →
      m.Get addr = .error "Segment index of key is negative - unimplemented") ∧
    (¬ addr.SegmentIndex < 0 →
      (∀ v, assocGet m.data addr = some v → m.Get addr = .ok v) ∧
      (assocGet m.data addr = none →
        m.Get addr = .error "Memory Get: Value not found")) := by
  constructor
  · intro h
    unfold Memory.Get
    rw [if_pos h]
  · intro h
    constructor
    · intro v hv
      unfold Memory.Get
      rw [if_neg h, hv]
    · intro hv
      unfold Memory.Get
      rw [if_neg h, hv]

/-- Witness for C10 at a concrete memory. -/
theorem c10_memory_get_witness :
    Memory.Get ⟨[(⟨0, 0⟩, .felt 5)], 1, [], []⟩ ⟨0, 0⟩ = .ok (.felt 5) ∧
    Memory.Get ⟨[(⟨0, 0⟩, .felt 5)], 1, [], []⟩ ⟨-1, 0⟩ =
      .error "Segment index of key is negative - unimplemented" := by
  refine ⟨((c10_memory_get ⟨[(⟨0, 0⟩, .felt 5)], 1, [], []⟩ ⟨0, 0⟩).2 (by decide)).1
    (.felt 5) (by decide), (c10_memory_get _ ⟨-1, 0⟩).1 (by decide)⟩

/-- Claim C1 (amended): Insert on a negative segment fails with the
negative-segment error and on an unallocated segment with the
unallocated-segment error, leaving the memory untouched; after a
successful insert of `v1`, inserting a different `v2` fails with the
write-once error and keeps `v1`; re-inserting `v1` itself rewrites the
same data and succeeds whenever the address is already validated or its
segment has no validation rule (the data is unchanged in every case — only
a validation-rule failure can make the re-insert return an error). -/
theorem c1_insert_write_once (m : Memory) (addr : Relocatable) (v1 v2 : MaybeRelocatable) :
    (addr.SegmentIndex < 0 →
      m.Insert addr v1 = (m, some "Segment index of key is negative - unimplemented")) ∧
    (¬ addr.SegmentIndex < 0 → (m.num_segments : Int) ≤ addr.SegmentIndex →
      m.Insert addr v1 = (m, some "Error: Inserting into a non allocated segment")) ∧
    ((m.Insert addr v1).2 = none → v2 ≠ v1 →
      (m.Insert addr v1).1.Insert addr v2 =
        ((m.Insert addr v1).1, some "Memory is write-once, cannot overwrite memory value") ∧
      assocGet (m.Insert addr v1).1.data addr = some v1) ∧
    ((m.Insert addr v1).2 = none → v2 = v1 →
      ((m.Insert addr v1).1.Insert addr v2).1.data = (m.Insert addr v1).1.data ∧
      ((addr ∈ (m.Insert addr v1).1.validated_addresses ∨
        assocGet (m.Insert addr v1).1.validation_rules addr.SegmentIndex.toNat = none) →
        ((m.Insert addr v1).1.Insert addr v2).2 = none)) := by
  refine ⟨?_, ?_, ?_, ?_⟩
  · intro h
    unfold Memory.Insert
    rw [if_pos h]
  · intro h0 h1
    unfold Memory.Insert
    rw [if_neg h0, if_pos h1]
  · intro hsucc hne
    obtain ⟨hneg, hnum, hdata, hnumseg⟩ := Insert_success_facts m addr v1 hsucc
    have hstored : assocGet (m.Insert addr v1).1.data addr = some v1 := by
      rw [hdata]; exact assocGet_assocSet_self _ _ _
    refine ⟨?_, hstored⟩
    have hnum1 : ¬ ((m.Insert addr v1).1.num_segments : Int) ≤ addr.SegmentIndex := by
      rw [hnumseg]; exact hnum
    have hp : v1 ≠ v2 := fun h => hne h.symm
    generalize hg : (m.Insert addr v1).1 = m1 at hstored hnum1 ⊢
    unfold Memory.Insert
    simp only [if_neg hneg, if_neg hnum1, hstored, if_pos hp]
  · intro hsucc hv
    subst hv
    obtain ⟨hneg, hnum, hdata, hnumseg⟩ := Insert_success_facts m addr v2 hsucc
    have hstored : assocGet (m.Insert addr v2).1.data addr = some v2 := by
      rw [hdata]; exact assocGet_assocSet_self _ _ _
    have hsame : assocSet (m.Insert addr v2).1.data addr v2 = (m.Insert addr v2).1.data :=
      assocSet_same _ _ _ hstored
    have hnum1 : ¬ ((m.Insert addr v2).1.num_segments : Int) ≤ addr.SegmentIndex := by
      rw [hnumseg]; exact hnum
    generalize hg : (m.Insert addr v2).1 = m1 at hstored hsame hnum1 ⊢
    unfold Memory.Insert
    simp only [if_neg hneg, if_neg hnum1, hstored, ne_eq, not_true_eq_false,
      if_false, hsame]
    constructor
    · exact (validateAddress_data _ addr).1
    · intro hval
      unfold Memory.validateAddress
      rcases hval with hval | hval
      · rw [if_pos (Or.inr hval)]
      · by_cases hc : addr.SegmentIndex < 0 ∨ addr ∈
          (Memory.mk m1.data m1.num_segments m1.validation_rules
            m1.validated_addresses).validated_addresses
        · rw [if_pos hc]
        · rw [if_neg hc]
          simp only [hval]

/-- Perverse but well-typed validation rule: it validates address `(0,5)`
the first time and rejects once `(0,5)` is in the validated set. -/
def c1Rule : ValidationRule := fun mv _ =>
  if (⟨0, 5⟩ : Relocatable) ∈ mv.validated_addresses then
    .error "rule rejects revalidation"
  else .ok [⟨0, 5⟩]

/-- One-segment memory carrying `c1Rule` on segment 0. -/
def c1Mem : Memory := ⟨[], 1, [(0, c1Rule)], []⟩

/-- Counterexample to C1 as stated: with a validation rule installed, a
second Insert of the very same value at the same address can fail (here
with the rule's error), while the claim says it always succeeds. -/
theorem c1_cex :
    (c1Mem.Insert ⟨0, 0⟩ (.felt 5)).2 = none ∧
    ((c1Mem.Insert ⟨0, 0⟩ (.felt 5)).1.Insert ⟨0, 0⟩ (.felt 5)).2 =
      some "rule rejects revalidation" := by
  exact ⟨by decide, by decide⟩

/-- Witness for C1 (amended) at a concrete rule-free memory. -/
theorem c1_insert_write_once_witness :
    ((Memory.mk [] 1 [] []).Insert ⟨0, 0⟩ (.felt 5)).1.Insert ⟨0, 0⟩ (.felt 6) =
      (((Memory.mk [] 1 [] []).Insert ⟨0, 0⟩ (.felt 5)).1,
        some "Memory is write-once, cannot overwrite memory value") ∧
    assocGet ((Memory.mk [] 1 [] []).Insert ⟨0, 0⟩ (.felt 5)).1.data ⟨0, 0⟩ =
      some (.felt 5) := by
  exact (c1_insert_write_once (Memory.mk [] 1 [] []) ⟨0, 0⟩ (.felt 5)
    (.felt 6)).2.2.1 (by decide) (by decide)

end ClaimBasics

section ClaimRegisters

/-- Minimal virtual machine used to exhibit concrete runs. -/
def vm0 : VirtualMachine :=
  ⟨⟨⟨0, 0⟩, ⟨0, 0⟩, ⟨0, 0⟩⟩, 0, ⟨none, ⟨[], 0, [], []⟩⟩, [], [], [], []⟩

/-- Claim C5 (amended): for fp_update AP_PLUS_2 the source assigns only
the offset field, so the new fp is `(fp.segment_index, ap.offset + 2)` —
fp's segment index is left unchanged, which coincides with the claimed
`(ap.segment_index, ap.offset + 2)` only when fp and ap already share a
segment. -/
theorem c5_update_fp_ap_plus_2 (vm : VirtualMachine) (i : Instruction)
    (ops : Operands) (h : i.FpUpdate = .FpUpdateAPPlus2) :
    vm.UpdateFp i ops =
      (vm.setFp ⟨vm.RunContext.Fp.SegmentIndex,
        (vm.RunContext.Ap.Offset + 2) % 2 ^ 64⟩, .ok ()) := by
  unfold VirtualMachine.UpdateFp
  rw [h]

/-- Witness for C5 (amended) at a concrete state. -/
theorem c5_update_fp_ap_plus_2_witness :
    ({ vm0 with RunContext := ⟨⟨0, 0⟩, ⟨1, 5⟩, ⟨0, 0⟩⟩ } : VirtualMachine).UpdateFp
      ⟨0, 0, 0, .AP, .AP, .Op1SrcAP, .ResOp1, .PcUpdateRegular, .ApUpdateAdd2,
        .FpUpdateAPPlus2, .Call⟩ ⟨.felt 0, none, .felt 0, .felt 0⟩ =
      (({ vm0 with RunContext := ⟨⟨0, 0⟩, ⟨1, 5⟩, ⟨0, 0⟩⟩ } : VirtualMachine).setFp
        ⟨0, 7 % 2 ^ 64⟩, .ok ()) :=
  c5_update_fp_ap_plus_2 _ _ _ rfl

/-- Counterexample to C5 as stated: with fp in segment 0 and ap in
segment 1, the updated fp stays in segment 0, not in ap's segment as the
claim requires. -/
theorem c5_cex :
    (({ vm0 with RunContext := ⟨⟨0, 0⟩, ⟨1, 5⟩, ⟨0, 0⟩⟩ } : VirtualMachine).UpdateFp
      ⟨0, 0, 0, .AP, .AP, .Op1SrcAP, .ResOp1, .PcUpdateRegular, .ApUpdateAdd2,
        .FpUpdateAPPlus2, .Call⟩ ⟨.felt 0, none, .felt 0, .felt 0⟩).1.RunContext.Fp =
      ⟨0, 7⟩ ∧
    (({ vm0 with RunContext := ⟨⟨0, 0⟩, ⟨1, 5⟩, ⟨0, 0⟩⟩ } : VirtualMachine).UpdateFp
      ⟨0, 0, 0, .AP, .AP, .Op1SrcAP, .ResOp1, .PcUpdateRegular, .ApUpdateAdd2,
        .FpUpdateAPPlus2, .Call⟩ ⟨.felt 0, none, .felt 0, .felt 0⟩).1.RunContext.Fp ≠
      ⟨1, 7⟩ := by
  exact ⟨by decide, by decide⟩

/-- Boolean value equality agrees with propositional equality. -/
theorem IsEqual_true_iff (a b : MaybeRelocatable) : a.IsEqual b = true ↔ a = b := by
  simp [MaybeRelocatable.IsEqual]

/-- Boolean address equality agrees with propositional equality. -/
theorem RelocatableIsEqual_true_iff (a b : Relocatable) :
    a.IsEqual b = true ↔ a = b := by
  simp [Relocatable.IsEqual]

/-- A passing ASSERT_EQ assertion forces res to be defined and equal to
dst. -/
theorem OpcodeAssertions_assert_eq_ok (vm : VirtualMachine) (i : Instruction)
    (ops : Operands) (hop : i.Opcode = .AssertEq) (u : Unit)
    (h : vm.OpcodeAssertions i ops = .ok u) : ops.Res = some ops.Dst := by
  unfold VirtualMachine.OpcodeAssertions at h
  cases hres : ops.Res with
  | none =>
    simp only [hop, hres] at h
    exact absurd h (by simp)
  | some r =>
    simp only [hop, hres] at h
    by_cases he : r.IsEqual ops.Dst = true
    · rw [(IsEqual_true_iff r ops.Dst).1 he]
    · simp only [if_neg he] at h
      exact absurd h (by simp)

/-- Claim C3: for ASSERT_EQ the opcode assertions fail with
UnconstrainedResAssertEq when res is missing, fail with DiffAssertValues
when res differs from dst, succeed when res equals dst; hence every
successful step of an ASSERT_EQ instruction computed operands with res
defined and equal to dst. -/
theorem c3_assert_eq_assertions (i : Instruction) (hop : i.Opcode = .AssertEq) :
    (∀ (vm : VirtualMachine) (ops : Operands),
      (ops.Res = none → vm.OpcodeAssertions i ops = .err "UnconstrainedResAssertEq") ∧
      (∀ r, ops.Res = some r → r ≠ ops.Dst →
        vm.OpcodeAssertions i ops = .err "DiffAssertValues") ∧
      (ops.Res = some ops.Dst → vm.OpcodeAssertions i ops = .ok ())) ∧
    (∀ vm : VirtualMachine, (vm.RunInstruction i).2 = .ok () →
      ∃ ops, (vm.ComputeOperands i).2 = .ok ops ∧ ops.Res = some ops.Dst) := by
  constructor
  · intro vm ops
    refine ⟨?_, ?_, ?_⟩
    · intro hres
      unfold VirtualMachine.OpcodeAssertions
      rw [hop]
      simp only [hres]
    · intro r hres hne
      unfold VirtualMachine.OpcodeAssertions
      have hne1 : ¬ r.IsEqual ops.Dst = true := fun h =>
        hne ((IsEqual_true_iff r ops.Dst).1 h)
      simp only [hop, hres, if_neg hne1]
    · intro hres
      unfold VirtualMachine.OpcodeAssertions
      have heq : (ops.Dst).IsEqual ops.Dst = true :=
        (IsEqual_true_iff ops.Dst ops.Dst).2 rfl
      simp only [hop, hres, if_pos heq]
  · intro vm hstep
    unfold VirtualMachine.RunInstruction at hstep
    split at hstep
    · exact absurd hstep (by simp)
    · exact absurd hstep (by simp)
    · rename_i vm1 ops heq
      split at hstep
      · exact absurd hstep (by simp)
      · exact absurd hstep (by simp)
      · rename_i u hassert
        exact ⟨ops, by rw [heq], OpcodeAssertions_assert_eq_ok vm1 i ops hop u hassert⟩

/-- Witness for C3 at a concrete instruction and operand set. -/
theorem c3_assert_eq_assertions_witness :
    vm0.OpcodeAssertions
      ⟨0, 0, 0, .AP, .AP, .Op1SrcAP, .ResOp1, .PcUpdateRegular, .ApUpdateRegular,
        .FpUpdateRegular, .AssertEq⟩
      ⟨.felt 3, some (.felt 3), .felt 1, .felt 3⟩ = .ok () :=
  ((c3_assert_eq_assertions _ rfl).1 vm0
    ⟨.felt 3, some (.felt 3), .felt 1, .felt 3⟩).2.2 rfl

/-- Claim C7: the ASSERT_EQ / MUL branch of DeduceOp1 dereferences a
missing dst (or a missing op0) instead of returning None: evaluating the
source at these inputs is a nil-pointer crash, against the claim that
every insufficient-input case returns None without error or crash. -/
theorem c7_deduce_op1_nil_crash :
    vm0.DeduceOp1
      ⟨0, 0, 0, .AP, .AP, .Op1SrcAP, .ResMul, .PcUpdateRegular, .ApUpdateRegular,
        .FpUpdateRegular, .AssertEq⟩ none (some (.felt 2)) = .crash ∧
    vm0.DeduceOp1
      ⟨0, 0, 0, .AP, .AP, .Op1SrcAP, .ResMul, .PcUpdateRegular, .ApUpdateRegular,
        .FpUpdateRegular, .AssertEq⟩ (some (.felt 2)) none = .crash := by
  exact ⟨by decide, by decide⟩

end ClaimRegisters

section Preservation

/-- UpdateFp only ever touches the fp register. -/
theorem UpdateFp_pres (vm : VirtualMachine) (i : Instruction) (ops : Operands) :
    (vm.UpdateFp i ops).1.RunContext.Pc = vm.RunContext.Pc ∧
    (vm.UpdateFp i ops).1.RunContext.Ap = vm.RunContext.Ap ∧
    (vm.UpdateFp i ops).1.Segments = vm.Segments ∧
    (vm.UpdateFp i ops).1.Trace = vm.Trace := by
  unfold VirtualMachine.UpdateFp
  split
  · exact ⟨rfl, rfl, rfl, rfl⟩
  · dsimp only
    split
    · exact ⟨rfl, rfl, rfl, rfl⟩
    · split
      · exact ⟨rfl, rfl, rfl, rfl⟩
      · exact ⟨rfl, rfl, rfl, rfl⟩
  · exact ⟨rfl, rfl, rfl, rfl⟩

/-- UpdateAp only ever touches the ap register. -/
theorem UpdateAp_pres (vm : VirtualMachine) (i : Instruction) (ops : Operands) :
    (vm.UpdateAp i ops).1.RunContext.Pc = vm.RunContext.Pc ∧
    (vm.UpdateAp i ops).1.RunContext.Fp = vm.RunContext.Fp ∧
    (vm.UpdateAp i ops).1.Segments = vm.Segments ∧
    (vm.UpdateAp i ops).1.Trace = vm.Trace := by
  unfold VirtualMachine.UpdateAp
  split
  · split
    · exact ⟨rfl, rfl, rfl, rfl⟩
    · split
      · exact ⟨rfl, rfl, rfl, rfl⟩
      · exact ⟨rfl, rfl, rfl, rfl⟩
  · exact ⟨rfl, rfl, rfl, rfl⟩
  · exact ⟨rfl, rfl, rfl, rfl⟩
  · exact ⟨rfl, rfl, rfl, rfl⟩

/-- UpdatePc only ever touches the pc register. -/
theorem UpdatePc_pres (vm : VirtualMachine) (i : Instruction) (ops : Operands) :
    (vm.UpdatePc i ops).1.RunContext.Ap = vm.RunContext.Ap ∧
    (vm.UpdatePc i ops).1.RunContext.Fp = vm.RunContext.Fp ∧
    (vm.UpdatePc i ops).1.Segments = vm.Segments ∧
    (vm.UpdatePc i ops).1.Trace = vm.Trace := by
  unfold VirtualMachine.UpdatePc
  split
  · exact ⟨rfl, rfl, rfl, rfl⟩
  · split
    · exact ⟨rfl, rfl, rfl, rfl⟩
    · dsimp only
      split
      · exact ⟨rfl, rfl, rfl, rfl⟩
      · exact ⟨rfl, rfl, rfl, rfl⟩
  · split
    · exact ⟨rfl, rfl, rfl, rfl⟩
    · dsimp only
      split
      · split
        · exact ⟨rfl, rfl, rfl, rfl⟩
        · exact ⟨rfl, rfl, rfl, rfl⟩
      · exact ⟨rfl, rfl, rfl, rfl⟩
  · split
    · exact ⟨rfl, rfl, rfl, rfl⟩
    · split
      · exact ⟨rfl, rfl, rfl, rfl⟩
      · exact ⟨rfl, rfl, rfl, rfl⟩

/-- A failing UpdateFp leaves the machine untouched. -/
theorem UpdateFp_err (vm : VirtualMachine) (i : Instruction) (ops : Operands)
    (e : String) : (vm.UpdateFp i ops).2 = .err e → (vm.UpdateFp i ops).1 = vm := by
  unfold VirtualMachine.UpdateFp
  split
  · intro h; exact absurd h (by simp)
  · dsimp only
    split
    · intro h; exact absurd h (by simp)
    · split
      · intro _; rfl
      · intro h; exact absurd h (by simp)
  · intro h; exact absurd h (by simp)

/-- A failing UpdateAp leaves the machine untouched. -/
theorem UpdateAp_err (vm : VirtualMachine) (i : Instruction) (ops : Operands)
    (e : String) : (vm.UpdateAp i ops).2 = .err e → (vm.UpdateAp i ops).1 = vm := by
  unfold VirtualMachine.UpdateAp
  split
  · split
    · intro _; rfl
    · split
      · intro _; rfl
      · intro h; exact absurd h (by simp)
  · intro h; exact absurd h (by simp)
  · intro h; exact absurd h (by simp)
  · intro h; exact absurd h (by simp)

/-- A failing UpdatePc leaves the machine untouched. -/
theorem UpdatePc_err (vm : VirtualMachine) (i : Instruction) (ops : Operands)
    (e : String) : (vm.UpdatePc i ops).2 = .err e → (vm.UpdatePc i ops).1 = vm := by
  unfold VirtualMachine.UpdatePc
  split
  · intro h; exact absurd h (by simp)
  · split
    · intro _; rfl
    · dsimp only
      split
      · intro h; exact absurd h (by simp)
      · intro _; rfl
  · split
    · intro _; rfl
    · dsimp only
      split
      · split
        · intro _; rfl
        · intro h; exact absurd h (by simp)
      · intro _; rfl
  · split
    · intro h; exact absurd h (by simp)
    · split
      · intro _; rfl
      · intro h; exact absurd h (by simp)

/-- The register update never touches segments or trace. -/
theorem UpdateRegisters_pres (vm : VirtualMachine) (i : Instruction) (ops : Operands) :
    (vm.UpdateRegisters i ops).1.Segments = vm.Segments ∧
    (vm.UpdateRegisters i ops).1.Trace = vm.Trace := by
  unfold VirtualMachine.UpdateRegisters
  split
  · rename_i vm1 e heq
    have h1 := congrArg (fun p => p.1.Segments) heq
    have h2 := congrArg (fun p => p.1.Trace) heq
    simp only at h1 h2
    exact ⟨h1 ▸ (UpdateFp_pres vm i ops).2.2.1, h2 ▸ (UpdateFp_pres vm i ops).2.2.2⟩
  · rename_i vm1 heq
    have h1 := congrArg (fun p => p.1.Segments) heq
    have h2 := congrArg (fun p => p.1.Trace) heq
    simp only at h1 h2
    exact ⟨h1 ▸ (UpdateFp_pres vm i ops).2.2.1, h2 ▸ (UpdateFp_pres vm i ops).2.2.2⟩
  · rename_i vm1 u heq
    have h1f := congrArg (fun p => p.1.Segments) heq
    have h2f := congrArg (fun p => p.1.Trace) heq
    simp only at h1f h2f
    have hseg1 : vm1.Segments = vm.Segments := h1f ▸ (UpdateFp_pres vm i ops).2.2.1
    have htr1 : vm1.Trace = vm.Trace := h2f ▸ (UpdateFp_pres vm i ops).2.2.2
    split
    · rename_i vm2 e heq2
      have h1 := congrArg (fun p => p.1.Segments) heq2
      have h2 := congrArg (fun p => p.1.Trace) heq2
      simp only at h1 h2
      constructor
      · rw [← hseg1, ← h1]; exact (UpdateAp_pres vm1 i ops).2.2.1
      · rw [← htr1, ← h2]; exact (UpdateAp_pres vm1 i ops).2.2.2
    · rename_i vm2 heq2
      have h1 := congrArg (fun p => p.1.Segments) heq2
      have h2 := congrArg (fun p => p.1.Trace) heq2
      simp only at h1 h2
      constructor
      · rw [← hseg1, ← h1]; exact (UpdateAp_pres vm1 i ops).2.2.1
      · rw [← htr1, ← h2]; exact (UpdateAp_pres vm1 i ops).2.2.2
    · rename_i vm2 u2 heq2
      have h1 := congrArg (fun p => p.1.Segments) heq2
      have h2 := congrArg (fun p => p.1.Trace) heq2
      simp only at h1 h2
      have hseg2 : vm2.Segments = vm1.Segments := h1 ▸ (UpdateAp_pres vm1 i ops).2.2.1
      have htr2 : vm2.Trace = vm1.Trace := h2 ▸ (UpdateAp_pres vm1 i ops).2.2.2
      constructor
      · rw [(UpdatePc_pres vm2 i ops).2.2.1, hseg2, hseg1]
      · rw [(UpdatePc_pres vm2 i ops).2.2.2, htr2, htr1]

/-- An error inside the register update leaves pc at its old value. -/
theorem UpdateRegisters_err_pc (vm : VirtualMachine) (i : Instruction)
    (ops : Operands) (e : String) :
    (vm.UpdateRegisters i ops).2 = .err e →
    (vm.UpdateRegisters i ops).1.RunContext.Pc = vm.RunContext.Pc := by
  unfold VirtualMachine.UpdateRegisters
  split
  · rename_i vm1 e0 heq
    intro _
    have h1 := congrArg (fun p => p.1.RunContext.Pc) heq
    simp only at h1
    exact h1 ▸ (UpdateFp_pres vm i ops).1
  · rename_i vm1 heq
    intro h; exact absurd h (by simp)
  · rename_i vm1 u heq
    have h1f := congrArg (fun p => p.1.RunContext.Pc) heq
    simp only at h1f
    have hpc1 : vm1.RunContext.Pc = vm.RunContext.Pc := h1f ▸ (UpdateFp_pres vm i ops).1
    split
    · rename_i vm2 e0 heq2
      intro _
      have h1 := congrArg (fun p => p.1.RunContext.Pc) heq2
      simp only at h1
      rw [← hpc1, ← h1]
      exact (UpdateAp_pres vm1 i ops).1
    · rename_i vm2 heq2
      intro h; exact absurd h (by simp)
    · rename_i vm2 u2 heq2
      intro h
      have h1 := congrArg (fun p => p.1.RunContext.Pc) heq2
      simp only at h1
      have hpc2 : vm2.RunContext.Pc = vm1.RunContext.Pc := h1 ▸ (UpdateAp_pres vm1 i ops).1
      rw [UpdatePc_err vm2 i ops e h, hpc2, hpc1]

end Preservation

section OperandPreservation

/-- The op0 deduction step only writes memory. -/
theorem ComputeOp0Deductions_pres (vm : VirtualMachine) (a : Relocatable)
    (i : Instruction) (d o : Option MaybeRelocatable) :
    (vm.ComputeOp0Deductions a i d o).1.RunContext = vm.RunContext ∧
    (vm.ComputeOp0Deductions a i d o).1.Trace = vm.Trace ∧
    (vm.ComputeOp0Deductions a i d o).1.BuiltinRunners = vm.BuiltinRunners := by
  unfold VirtualMachine.ComputeOp0Deductions
  split
  · exact ⟨rfl, rfl, rfl⟩
  · exact ⟨rfl, rfl, rfl⟩
  · split
    · exact ⟨rfl, rfl, rfl⟩
    · exact ⟨rfl, rfl, rfl⟩
    · exact ⟨rfl, rfl, rfl⟩

/-- The op1 deduction step only writes memory. -/
theorem ComputeOp1Deductions_pres (vm : VirtualMachine) (a : Relocatable)
    (i : Instruction) (d o r : Option MaybeRelocatable) :
    (vm.ComputeOp1Deductions a i d o r).1.RunContext = vm.RunContext ∧
    (vm.ComputeOp1Deductions a i d o r).1.Trace = vm.Trace ∧
    (vm.ComputeOp1Deductions a i d o r).1.BuiltinRunners = vm.BuiltinRunners := by
  unfold VirtualMachine.ComputeOp1Deductions
  split
  · exact ⟨rfl, rfl, rfl⟩
  · exact ⟨rfl, rfl, rfl⟩
  · split
    · exact ⟨rfl, rfl, rfl⟩
    · exact ⟨rfl, rfl, rfl⟩
    · exact ⟨rfl, rfl, rfl⟩
    · exact ⟨rfl, rfl, rfl⟩

/-- The op0 branch of compute_operands only writes memory. -/
theorem op0Branch_pres (vm : VirtualMachine) (op0Read : Option MaybeRelocatable)
    (a : Relocatable) (i : Instruction) (d o : Option MaybeRelocatable) :
    (match op0Read with
      | some v => (vm, Outcome.ok (v, (none : Option MaybeRelocatable)))
      | none => vm.ComputeOp0Deductions a i d o).1.RunContext = vm.RunContext ∧
    (match op0Read with
      | some v => (vm, Outcome.ok (v, (none : Option MaybeRelocatable)))
      | none => vm.ComputeOp0Deductions a i d o).1.Trace = vm.Trace ∧
    (match op0Read with
      | some v => (vm, Outcome.ok (v, (none : Option MaybeRelocatable)))
      | none => vm.ComputeOp0Deductions a i d o).1.BuiltinRunners = vm.BuiltinRunners := by
  cases op0Read with
  | some v => exact ⟨rfl, rfl, rfl⟩
  | none => exact ComputeOp0Deductions_pres vm a i d o

/-- The op1 branch of compute_operands only writes memory. -/
theorem op1Branch_pres (vm : VirtualMachine) (op1Read : Option MaybeRelocatable)
    (a : Relocatable) (i : Instruction) (d o r : Option MaybeRelocatable) :
    (match op1Read with
      | some v => (vm, Outcome.ok v)
      | none => vm.ComputeOp1Deductions a i d o r).1.RunContext = vm.RunContext ∧
    (match op1Read with
      | some v => (vm, Outcome.ok v)
      | none => vm.ComputeOp1Deductions a i d o r).1.Trace = vm.Trace ∧
    (match op1Read with
      | some v => (vm, Outcome.ok v)
      | none => vm.ComputeOp1Deductions a i d o r).1.BuiltinRunners = vm.BuiltinRunners := by
  cases op1Read with
  | some v => exact ⟨rfl, rfl, rfl⟩
  | none => exact ComputeOp1Deductions_pres vm a i d o r

/-- Computing operands reads and writes only the memory: registers, trace
and builtin list are untouched. -/
theorem ComputeOperands_pres (vm : VirtualMachine) (i : Instruction) :
    (vm.ComputeOperands i).1.RunContext = vm.RunContext ∧
    (vm.ComputeOperands i).1.Trace = vm.Trace ∧
    (vm.ComputeOperands i).1.BuiltinRunners = vm.BuiltinRunners := by
  unfold VirtualMachine.ComputeOperands
  split
  · exact ⟨rfl, rfl, rfl⟩
  · dsimp only
    split
    · exact ⟨rfl, rfl, rfl⟩
    · split
      · exact ⟨rfl, rfl, rfl⟩
      · split
        · rename_i vm1 e heq
          have h := congrArg (fun p => p.1) heq
          simp only at h
          exact h ▸ op0Branch_pres vm _ _ i _ _
        · rename_i vm1 heq
          have h := congrArg (fun p => p.1) heq
          simp only at h
          exact h ▸ op0Branch_pres vm _ _ i _ _
        · rename_i vm1 op0 res0 heq
          have h := congrArg (fun p => p.1) heq
          simp only at h
          have hvm1 := h ▸ op0Branch_pres vm _ _ i _ _
          split
          · rename_i vm2 e heq2
            have h2 := congrArg (fun p => p.1) heq2
            simp only at h2
            have hvm2 := h2 ▸ op1Branch_pres vm1 _ _ i _ _ _
            exact ⟨hvm2.1.trans hvm1.1, hvm2.2.1.trans hvm1.2.1,
              hvm2.2.2.trans hvm1.2.2⟩
          · rename_i vm2 heq2
            have h2 := congrArg (fun p => p.1) heq2
            simp only at h2
            have hvm2 := h2 ▸ op1Branch_pres vm1 _ _ i _ _ _
            exact ⟨hvm2.1.trans hvm1.1, hvm2.2.1.trans hvm1.2.1,
              hvm2.2.2.trans hvm1.2.2⟩
          · rename_i vm2 op1 heq2
            have h2 := congrArg (fun p => p.1) heq2
            simp only at h2
            have hvm2 := h2 ▸ op1Branch_pres vm1 _ _ i _ _ _
            have hcomb : vm2.RunContext = vm.RunContext ∧ vm2.Trace = vm.Trace ∧
                vm2.BuiltinRunners = vm.BuiltinRunners :=
              ⟨hvm2.1.trans hvm1.1, hvm2.2.1.trans hvm1.2.1, hvm2.2.2.trans hvm1.2.2⟩
            split
            · exact hcomb
            · split
              · exact hcomb
              · split
                · exact hcomb
                · exact hcomb
end OperandPreservation

section ClaimStep

/-- Claim C2: a successful step appends exactly one trace entry holding
the registers as they were before update_registers ran (compute_operands
does not move them), and the step's final memory is the memory as it
stood when the trace entry was appended — every deduced-operand insert of
the step happened inside compute_operands, before the append. -/
theorem c2_trace_ordering (vm : VirtualMachine) (i : Instruction)
    (h : (vm.RunInstruction i).2 = .ok ()) :
    (∃ ops, (vm.ComputeOperands i).2 = .ok ops) ∧
    (vm.ComputeOperands i).1.RunContext = vm.RunContext ∧
    (vm.RunInstruction i).1.Segments.Memory = (vm.ComputeOperands i).1.Segments.Memory ∧
    (vm.RunInstruction i).1.Trace =
      vm.Trace ++ [TraceEntry.mk vm.RunContext.Pc vm.RunContext.Ap vm.RunContext.Fp] := by
  have hpres := ComputeOperands_pres vm i
  revert h
  unfold VirtualMachine.RunInstruction
  split
  · intro h; exact absurd h (by simp)
  · intro h; exact absurd h (by simp)
  · rename_i vm1 ops heq
    rw [heq] at hpres ⊢
    dsimp only
    dsimp only at hpres
    split
    · intro h; exact absurd h (by simp)
    · intro h; exact absurd h (by simp)
    · rename_i u hassert
      split
      · intro h; exact absurd h (by simp)
      · intro h; exact absurd h (by simp)
      · rename_i vm3 u3 heq3
        intro _
        have hupd := UpdateRegisters_pres
          { vm1 with Trace := vm1.Trace ++
            [TraceEntry.mk vm1.RunContext.Pc vm1.RunContext.Ap vm1.RunContext.Fp] } i ops
        have hseg := congrArg (fun p => p.1.Segments) heq3
        have htr := congrArg (fun p => p.1.Trace) heq3
        simp only at hseg htr
        refine ⟨⟨ops, rfl⟩, hpres.1, ?_, ?_⟩
        · show vm3.Segments.Memory = vm1.Segments.Memory
          rw [← hseg, hupd.1]
        · show vm3.Trace = _
          rw [← htr, hupd.2]
          dsimp only
          rw [hpres.1, hpres.2.1]

/-- Concrete machine for the C2 witness: all three operands present. -/
def vmC2 : VirtualMachine :=
  ⟨⟨⟨0, 0⟩, ⟨1, 0⟩, ⟨1, 0⟩⟩, 0,
    ⟨none, ⟨[(⟨1, 0⟩, .felt 1), (⟨1, 1⟩, .felt 2), (⟨1, 2⟩, .felt 3)], 2, [], []⟩⟩,
    [], [], [], []⟩

/-- Concrete instruction for the C2 witness. -/
def iC2 : Instruction :=
  ⟨0, 1, 2, .AP, .AP, .Op1SrcAP, .ResOp1, .PcUpdateRegular, .ApUpdateRegular,
    .FpUpdateRegular, .NOp⟩

/-- Witness for C2 at a concrete successful step. -/
theorem c2_trace_ordering_witness :
    (∃ ops, (vmC2.ComputeOperands iC2).2 = .ok ops) ∧
    (vmC2.ComputeOperands iC2).1.RunContext = vmC2.RunContext ∧
    (vmC2.RunInstruction iC2).1.Segments.Memory =
      (vmC2.ComputeOperands iC2).1.Segments.Memory ∧
    (vmC2.RunInstruction iC2).1.Trace =
      vmC2.Trace ++ [TraceEntry.mk vmC2.RunContext.Pc vmC2.RunContext.Ap
        vmC2.RunContext.Fp] :=
  c2_trace_ordering vmC2 iC2 (by decide)

/-- Claim C6 (amended): an error anywhere in a step leaves pc unchanged,
and an error raised before the register update (in compute_operands)
leaves all three registers unchanged; but register sub-updates already
applied when a later sub-update fails keep their new values (fp is
updated first, then ap, then pc). -/
theorem c6_error_register_state :
    (∀ (vm : VirtualMachine) (i : Instruction) (e : String),
      (vm.RunInstruction i).2 = .err e →
      (vm.RunInstruction i).1.RunContext.Pc = vm.RunContext.Pc) ∧
    (∀ (vm : VirtualMachine) (i : Instruction) (e : String),
      (vm.ComputeOperands i).2 = .err e →
      (vm.RunInstruction i).2 = .err e ∧
      (vm.RunInstruction i).1.RunContext = vm.RunContext) ∧
    (∀ (vm : VirtualMachine) (i : Instruction) (ops : Operands) (e : String),
      (vm.ComputeOperands i).2 = .ok ops →
      (vm.ComputeOperands i).1.OpcodeAssertions i ops = .err e →
      (vm.RunInstruction i).2 = .err e ∧
      (vm.RunInstruction i).1.RunContext = vm.RunContext) := by
  refine ⟨?_, ?_, ?_⟩
  · intro vm i e
    have hpres := ComputeOperands_pres vm i
    unfold VirtualMachine.RunInstruction
    split
    · rename_i vm1 e0 heq
      intro _
      rw [heq] at hpres
      exact congrArg RunContext.Pc hpres.1
    · intro h; exact absurd h (by simp)
    · rename_i vm1 ops heq
      rw [heq] at hpres
      dsimp only at hpres
      split
      · intro _
        exact congrArg RunContext.Pc hpres.1
      · intro h; exact absurd h (by simp)
      · rename_i u hassert
        dsimp only
        split
        · rename_i vm3 e0 heq3
          intro _
          have hpc := congrArg (fun p => p.1.RunContext.Pc) heq3
          have hout := congrArg (fun p => p.2) heq3
          simp only at hpc hout
          have := UpdateRegisters_err_pc
            { vm1 with Trace := vm1.Trace ++
              [TraceEntry.mk vm1.RunContext.Pc vm1.RunContext.Ap vm1.RunContext.Fp] }
            i ops e0 hout
          rw [hpc] at this
          rw [this]
          exact congrArg RunContext.Pc hpres.1
        · intro h; exact absurd h (by simp)
        · intro h; exact absurd h (by simp)
  · intro vm i e hc
    have hpres := ComputeOperands_pres vm i
    cases hp : vm.ComputeOperands i with
    | mk vm1 out =>
      rw [hp] at hc hpres
      dsimp only at hc hpres
      subst hc
      unfold VirtualMachine.RunInstruction
      rw [hp]
      exact ⟨rfl, hpres.1⟩
  · intro vm i ops e hco hassert
    have hpres := ComputeOperands_pres vm i
    cases hp : vm.ComputeOperands i with
    | mk vm1 out =>
      rw [hp] at hco hassert hpres
      dsimp only at hco hassert hpres
      subst hco
      unfold VirtualMachine.RunInstruction
      rw [hp]
      dsimp only
      rw [hassert]
      exact ⟨rfl, hpres.1⟩

/-- Concrete machine for the C6 witness: op1 is absent and not deducible
for a NOP, so compute_operands fails before any register update. -/
def vmC6w : VirtualMachine :=
  ⟨⟨⟨0, 0⟩, ⟨0, 0⟩, ⟨0, 0⟩⟩, 0,
    ⟨none, ⟨[(⟨0, 0⟩, .felt 1), (⟨0, 1⟩, .felt 2)], 1, [], []⟩⟩, [], [], [], []⟩

/-- ASSERT_EQ variant of the C2 instruction: res (op1 = 3) differs from
dst (1), so the opcode assertions fail. -/
def iC6a : Instruction :=
  ⟨0, 1, 2, .AP, .AP, .Op1SrcAP, .ResOp1, .PcUpdateRegular, .ApUpdateRegular,
    .FpUpdateRegular, .AssertEq⟩

/-- Witness for C6 (amended) at a concrete compute_operands failure and a
concrete opcode-assertion failure; in both, all registers keep their
pre-step values. -/
theorem c6_error_register_state_witness :
    ((vmC6w.ComputeOperands iC2).2 = .err "Failed to compute or deduce op1" ∧
      ((vmC6w.RunInstruction iC2).2 = .err "Failed to compute or deduce op1" ∧
        (vmC6w.RunInstruction iC2).1.RunContext = vmC6w.RunContext)) ∧
    ((vmC2.ComputeOperands iC6a).2 =
        .ok ⟨.felt 1, some (.felt 3), .felt 2, .felt 3⟩ ∧
      ((vmC2.RunInstruction iC6a).2 = .err "DiffAssertValues" ∧
        (vmC2.RunInstruction iC6a).1.RunContext = vmC2.RunContext)) :=
  ⟨⟨by decide, c6_error_register_state.2.1 vmC6w iC2
      "Failed to compute or deduce op1" (by decide)⟩,
   ⟨by decide, c6_error_register_state.2.2 vmC2 iC6a
      ⟨.felt 1, some (.felt 3), .felt 2, .felt 3⟩ "DiffAssertValues"
      (by decide) (by decide)⟩⟩

/-- Concrete machine for the C6 counterexample: a RET whose op1 cell
holds a felt. -/
def vmC6 : VirtualMachine :=
  ⟨⟨⟨0, 0⟩, ⟨1, 10⟩, ⟨1, 10⟩⟩, 0,
    ⟨none, ⟨[(⟨1, 8⟩, .rel ⟨2, 3⟩), (⟨1, 9⟩, .felt 7)], 2, [], []⟩⟩, [], [], [], []⟩

/-- RET: dst at fp-2, op1 at fp-1, fp_update DST, pc_update JUMP. -/
def iC6 : Instruction :=
  ⟨-2, -1, -1, .FP, .FP, .Op1SrcFP, .ResOp1, .PcUpdateJump, .ApUpdateRegular,
    .FpUpdateDst, .Ret⟩

/-- Counterexample to C6 as stated: this RET step returns an error from
update_pc, yet fp has already been rewritten by update_fp, so the
registers do not hold their pre-update values. -/
theorem c6_cex :
    (vmC6.RunInstruction iC6).2 =
      .err "an integer value as Res cannot be used with PcUpdate.JUMP" ∧
    (vmC6.RunInstruction iC6).1.RunContext.Fp = ⟨2, 3⟩ ∧
    vmC6.RunContext.Fp ≠ ⟨2, 3⟩ := by
  exact ⟨by decide, by decide, by decide⟩

end ClaimStep

section ClaimDeductionInsert

/-- Builtin runner for the C8 scenario: deduces 5 for an empty cell and 9
once the cell is occupied (a deduction that reads the memory, as the
builtin hook allows). -/
def c8Builtin : BuiltinRunner :=
  ⟨⟨0, 0⟩, fun addr mem =>
    match mem.Get addr with
    | .ok _ => .ok (some (.felt 9))
    | .error _ => .ok (some (.felt 5))⟩

/-- Machine for the C8 scenario: ap sits in the builtin segment, dst is
present in segment 1. -/
def vmC8 : VirtualMachine :=
  ⟨⟨⟨1, 0⟩, ⟨0, 0⟩, ⟨1, 0⟩⟩, 0,
    ⟨none, ⟨[(⟨1, 0⟩, .felt 1)], 2, [], []⟩⟩, [c8Builtin], [], [], []⟩

/-- NOP whose op0 and op1 addresses coincide (both ap + 0). -/
def iC8 : Instruction :=
  ⟨0, 0, 0, .FP, .AP, .Op1SrcAP, .ResUnconstrained, .PcUpdateRegular,
    .ApUpdateRegular, .FpUpdateRegular, .NOp⟩

/-- Claim C8 is violated by the code: the deduced op1 (felt 9) conflicts
with the value already inserted for op0 at the same address (felt 5); the
write-once Insert returns the inconsistent-memory error, but
ComputeOp1Deductions discards it, so compute_operands — and the whole
step — succeed, with memory still holding 5 while the op1 operand is 9. -/
theorem c8_insert_conflict_swallowed :
    (vmC8.ComputeOperands iC8).2 =
      .ok ⟨.felt 1, none, .felt 5, .felt 9⟩ ∧
    assocGet (vmC8.ComputeOperands iC8).1.Segments.Memory.data ⟨0, 0⟩ =
      some (.felt 5) ∧
    ((vmC8.ComputeOperands iC8).1.Segments.Memory.Insert ⟨0, 0⟩ (.felt 9)).2 =
      some "Memory is write-once, cannot overwrite memory value" ∧
    (vmC8.RunInstruction iC8).2 = .ok () := by
  exact ⟨by decide, by decide, by decide, by decide⟩

end ClaimDeductionInsert

section ClaimRelocation

/-- The relocation table has one entry more than there are segments. -/
theorem relocTable_length (base : Nat) (l : List Nat) :
    (relocTable base l).length = l.length + 1 := by
  induction l generalizing base with
  | nil => rfl
  | cons h t ih => simp [relocTable, ih]

/-- Relocating trace entries preserves their number. -/
theorem relocateEntries_ok_length (entries : List TraceEntry) (table : List Nat)
    (l : List RelocatedTraceEntry) (h : relocateEntries entries table = .ok l) :
    l.length = entries.length := by
  induction entries generalizing l with
  | nil =>
    unfold relocateEntries at h
    simp only [Outcome.ok.injEq] at h
    rw [← h]
    rfl
  | cons e t ih =>
    unfold relocateEntries at h
    split at h
    · rename_i pc ap fp hpc hap hfp
      split at h
      · rename_i rest hrest
        simp only [Outcome.ok.injEq] at h
        rw [← h]
        simp [ih rest hrest]
      · exact absurd h (by simp)
    · exact absurd h (by simp)

/-- Claim C9: relocate_trace returns the no-relocation-for-execution-
segment error exactly when the relocation table has fewer than two
entries; get_relocated_trace errors with trace-not-relocated exactly when
no relocated entries exist, and returns them otherwise; and running
relocate on a machine with a non-empty trace, at least one segment, a
relocatable memory and relocatable trace entries produces the relocated
entries, after which get_relocated_trace succeeds. -/
theorem c9_trace_relocation :
    (∀ (vm : VirtualMachine) (table : List Nat),
      (vm.RelocateTrace table).2 = .err "no relocation found for execution segment" ↔
        table.length < 2) ∧
    (∀ vm : VirtualMachine,
      (vm.GetRelocatedTrace = .error "trace not relocated" ↔ vm.RelocatedTrace = []) ∧
      (vm.RelocatedTrace ≠ [] → vm.GetRelocatedTrace = .ok vm.RelocatedTrace)) ∧
    (∀ (vm : VirtualMachine) (table : List Nat) (l : List RelocatedTraceEntry)
      (rm : List (Nat × Felt)),
      vm.RelocatedTrace = [] → vm.Trace ≠ [] →
      1 ≤ vm.Segments.Memory.num_segments →
      vm.Segments.ComputeEffectiveSizes.RelocateSegments = some table →
      vm.Segments.ComputeEffectiveSizes.RelocateMemory table = .ok rm →
      relocateEntries vm.Trace table = .ok l →
      vm.Relocate.2 = .ok () ∧ vm.Relocate.1.RelocatedTrace = l ∧ l ≠ [] ∧
      vm.Relocate.1.GetRelocatedTrace = .ok l) := by
  refine ⟨?_, ?_, ?_⟩
  · intro vm table
    constructor
    · intro h
      by_contra hlen
      unfold VirtualMachine.RelocateTrace at h
      rw [if_neg hlen] at h
      cases hre : relocateEntries vm.Trace table with
      | ok l => rw [hre] at h; exact absurd h (by simp)
      | err e => rw [hre] at h; exact absurd h (by simp)
      | crash => rw [hre] at h; exact absurd h (by simp)
    · intro hlen
      unfold VirtualMachine.RelocateTrace
      rw [if_pos hlen]
  · intro vm
    unfold VirtualMachine.GetRelocatedTrace
    cases hr : vm.RelocatedTrace with
    | nil => simp
    | cons e t => simp
  · intro vm table l rm hrel htr hnum hseg hmem hentries
    have hlen : ¬ table.length < 2 := by
      have h1 : vm.Segments.ComputeEffectiveSizes.SegmentUsedSizes =
          some ((List.range vm.Segments.Memory.num_segments).map
            (fun idx => segmentSize idx vm.Segments.Memory.data)) := rfl
      unfold MemorySegmentManager.RelocateSegments at hseg
      rw [h1] at hseg
      simp only [Option.some.injEq] at hseg
      rw [← hseg, relocTable_length]
      simp only [List.length_map, List.length_range]
      omega
    have hlength := relocateEntries_ok_length vm.Trace table l hentries
    have hlne : l ≠ [] := by
      intro hnil
      rw [hnil] at hlength
      cases htc : vm.Trace with
      | nil => exact htr htc
      | cons e t => rw [htc] at hlength; simp at hlength
    have hlpos : 0 < l.length := by
      cases l with
      | nil => exact absurd rfl hlne
      | cons a b => simp
    unfold VirtualMachine.Relocate
    have htr1 : ¬ ({ vm with Segments := vm.Segments.ComputeEffectiveSizes }
        : VirtualMachine).Trace = [] := htr
    rw [if_neg htr1]
    simp only [hseg]
    simp only [hmem]
    unfold VirtualMachine.RelocateTrace
    rw [if_neg hlen]
    simp only [hentries]
    simp only [hrel, List.nil_append]
    refine ⟨trivial, trivial, hlne, ?_⟩
    unfold VirtualMachine.GetRelocatedTrace
    dsimp only
    rw [if_pos hlpos]

/-- Machine for the C9 witness: one empty segment, a one-entry trace,
nothing relocated yet. -/
def vmC9 : VirtualMachine :=
  ⟨⟨⟨0, 0⟩, ⟨0, 0⟩, ⟨0, 0⟩⟩, 0, ⟨none, ⟨[], 1, [], []⟩⟩, [],
    [⟨⟨0, 0⟩, ⟨0, 0⟩, ⟨0, 0⟩⟩], [], []⟩

/-- Witness for C9 at a concrete machine. -/
theorem c9_trace_relocation_witness :
    vmC9.Relocate.2 = .ok () ∧
    vmC9.Relocate.1.RelocatedTrace =
      [⟨FeltFromUint64 1, FeltFromUint64 1, FeltFromUint64 1⟩] ∧
    ([⟨FeltFromUint64 1, FeltFromUint64 1, FeltFromUint64 1⟩] :
      List RelocatedTraceEntry) ≠ [] ∧
    vmC9.Relocate.1.GetRelocatedTrace =
      .ok [⟨FeltFromUint64 1, FeltFromUint64 1, FeltFromUint64 1⟩] :=
  c9_trace_relocation.2.2 vmC9 [1, 1]
    [⟨FeltFromUint64 1, FeltFromUint64 1, FeltFromUint64 1⟩] []
    (by rfl) (by decide) (by decide) (by rfl) (by rfl) (by rfl)

end ClaimRelocation

section ClaimCall

/-- A converted Except succeeds exactly when the read succeeded. -/
theorem toOption_eq_some {ε α : Type} (e : Except ε α) (a : α)
    (h : e.toOption = some a) : e = .ok a := by
  cases e with
  | ok b => simp [Except.toOption] at h; rw [h]
  | error x => simp [Except.toOption] at h

/-- A converted Except is none exactly when the read failed. -/
theorem toOption_eq_none {ε α : Type} (e : Except ε α)
    (h : e.toOption = none) : ∀ a, e ≠ .ok a := by
  intro a ha
  rw [ha] at h
  simp [Except.toOption] at h

/-- Adding offset zero is the identity when the offset is in u64 range. -/
theorem AddInt_zero_inv (r x : Relocatable) (h : r.AddInt 0 = .ok x) : x = r := by
  unfold Relocatable.AddInt at h
  split at h
  · simp only [Except.ok.injEq] at h
    rw [← h]
    have he : ((r.Offset : Int) + 0).toNat = r.Offset := by omega
    rw [he]
  · exact absurd h (by simp)

/-- Adding offset one moves to the next cell, within u64 range. -/
theorem AddInt_one_inv (r x : Relocatable) (h : r.AddInt 1 = .ok x) :
    x = ⟨r.SegmentIndex, r.Offset + 1⟩ ∧ r.Offset + 1 < 2 ^ 64 := by
  unfold Relocatable.AddInt at h
  split at h
  · rename_i hc
    simp only [Except.ok.injEq] at h
    have he : ((r.Offset : Int) + 1).toNat = r.Offset + 1 := by omega
    constructor
    · rw [← h, he]
    · omega
  · exact absurd h (by simp)

/-- The next cell is a different address. -/
theorem succ_addr_ne (a : Relocatable) :
    (⟨a.SegmentIndex, a.Offset + 1⟩ : Relocatable) ≠ a := by
  obtain ⟨s, o⟩ := a
  intro h
  simp only [Relocatable.mk.injEq] at h
  omega

/-- With no builtin runners installed there is never a builtin deduction. -/
theorem DeduceMemoryCell_no_builtins (vm : VirtualMachine) (addr : Relocatable)
    (hb : vm.BuiltinRunners = []) : vm.DeduceMemoryCell addr = .ok none := by
  unfold VirtualMachine.DeduceMemoryCell
  rw [hb]
  split
  · rfl
  · rfl

/-- For a CALL with no builtins, the op0 deduction always deduces
`pc + size` (with the raw u64 offset addition of the source) and inserts
it at the op0 address, res staying undetermined. -/
theorem ComputeOp0Deductions_call (vm : VirtualMachine) (a : Relocatable)
    (i : Instruction) (d o1 : Option MaybeRelocatable)
    (hb : vm.BuiltinRunners = []) (hop : i.Opcode = .Call) :
    vm.ComputeOp0Deductions a i d o1 =
      (vm.withMemory (vm.Segments.Memory.Insert a
        (.rel ⟨vm.RunContext.Pc.SegmentIndex,
          (vm.RunContext.Pc.Offset + i.Size) % 2 ^ 64⟩)).1,
       .ok (.rel ⟨vm.RunContext.Pc.SegmentIndex,
          (vm.RunContext.Pc.Offset + i.Size) % 2 ^ 64⟩, none)) := by
  unfold VirtualMachine.ComputeOp0Deductions
  rw [DeduceMemoryCell_no_builtins vm a hb]
  unfold VirtualMachine.DeduceOp0
  simp only [hop]

/-- For a CALL with no builtins, a missing op1 cannot be deduced and the
op1 deduction fails. -/
theorem ComputeOp1Deductions_call_fails (vm : VirtualMachine) (a : Relocatable)
    (i : Instruction) (d o r : Option MaybeRelocatable)
    (hb : vm.BuiltinRunners = []) (hop : i.Opcode = .Call) :
    vm.ComputeOp1Deductions a i d o r = (vm, .err "Failed to compute or deduce op1") := by
  unfold VirtualMachine.ComputeOp1Deductions
  rw [DeduceMemoryCell_no_builtins vm a hb]
  unfold VirtualMachine.DeduceOp1
  have hne : ¬ i.Opcode = Opcode.AssertEq := by rw [hop]; simp
  simp only [if_neg hne]

/-- Passing CALL assertions pin down op0 as the return pc and dst's
relocatable projection as fp. -/
theorem OpcodeAssertions_call_ok (vmx : VirtualMachine) (i : Instruction)
    (ops : Operands) (u : Unit) (hop : i.Opcode = .Call)
    (h : vmx.OpcodeAssertions i ops = .ok u) :
    vmx.RunContext.Pc.Offset + i.Size < 2 ^ 64 ∧
    ops.Op0 = .rel ⟨vmx.RunContext.Pc.SegmentIndex,
      vmx.RunContext.Pc.Offset + i.Size⟩ ∧
    vmx.RunContext.Fp = ops.Dst.GetRelocatable.1 := by
  unfold VirtualMachine.OpcodeAssertions at h
  simp only [hop] at h
  unfold Relocatable.AddUint at h
  by_cases hlt : vmx.RunContext.Pc.Offset + i.Size < 2 ^ 64
  · simp only [if_pos hlt] at h
    refine ⟨hlt, ?_⟩
    by_cases h1 : ops.Op0.IsEqual (NewMaybeRelocatableRelocatable
      ⟨vmx.RunContext.Pc.SegmentIndex, vmx.RunContext.Pc.Offset + i.Size⟩) = true
    · simp only [if_pos h1] at h
      refine ⟨(IsEqual_true_iff _ _).1 h1, ?_⟩
      by_cases h2 : (vmx.RunContext.Fp).IsEqual ops.Dst.GetRelocatable.1 = true
      · exact (RelocatableIsEqual_true_iff _ _).1 h2
      · simp only [if_neg h2] at h
        exact absurd h (by simp)
    · simp only [if_neg h1] at h
      exact absurd h (by simp)
  · simp only [if_neg hlt] at h
    exact absurd h (by simp)

end ClaimCall

/-- A successful step decomposes into successful operand computation,
passing assertions, and a final memory equal to the post-operand memory. -/
theorem RunInstruction_ok_parts (vm : VirtualMachine) (i : Instruction)
    (h : (vm.RunInstruction i).2 = .ok ()) :
    ∃ ops u, (vm.ComputeOperands i).2 = .ok ops ∧
      (vm.ComputeOperands i).1.OpcodeAssertions i ops = .ok u ∧
      (vm.RunInstruction i).1.Segments.Memory =
        (vm.ComputeOperands i).1.Segments.Memory := by
  revert h
  unfold VirtualMachine.RunInstruction
  split
  · intro h; exact absurd h (by simp)
  · intro h; exact absurd h (by simp)
  · rename_i vm1 ops heq
    rw [heq]
    dsimp only
    split
    · intro h; exact absurd h (by simp)
    · intro h; exact absurd h (by simp)
    · rename_i u hassert
      split
      · intro h; exact absurd h (by simp)
      · intro h; exact absurd h (by simp)
      · rename_i vm3 u3 heq3
        intro _
        refine ⟨ops, u, rfl, hassert, ?_⟩
        have hupd := UpdateRegisters_pres
          { vm1 with Trace := vm1.Trace ++
            [TraceEntry.mk vm1.RunContext.Pc vm1.RunContext.Ap vm1.RunContext.Fp] } i ops
        have hseg := congrArg (fun p => p.1.Segments) heq3
        simp only at hseg
        show vm3.Segments.Memory = vm1.Segments.Memory
        rw [← hseg, hupd.1]

/-- For a successfully computed CALL with the standard dst/op0 selectors
(dst at ap, op0 at ap + 1), no builtins, and ap inside an allocated
non-temporary segment, memory afterwards holds the dst operand at ap and
the op0 operand at ap + 1. -/
theorem ComputeOperands_call_memory (vm : VirtualMachine) (i : Instruction)
    (ops : Operands)
    (hop : i.Opcode = .Call) (hdr : i.DstReg = .AP) (h0 : i.Off0 = 0)
    (h0r : i.Op0Reg = .AP) (h1 : i.Off1 = 1) (hb : vm.BuiltinRunners = [])
    (hs0 : ¬ vm.RunContext.Ap.SegmentIndex < 0)
    (hs1 : ¬ (vm.Segments.Memory.num_segments : Int) ≤ vm.RunContext.Ap.SegmentIndex)
    (h : (vm.ComputeOperands i).2 = .ok ops) :
    (vm.ComputeOperands i).1.Segments.Memory.Get vm.RunContext.Ap = .ok ops.Dst ∧
    (vm.ComputeOperands i).1.Segments.Memory.Get
      ⟨vm.RunContext.Ap.SegmentIndex, vm.RunContext.Ap.Offset + 1⟩ = .ok ops.Op0 := by
  unfold VirtualMachine.ComputeOperands at h ⊢
  cases hda : vm.RunContext.ComputeDstAddr i with
  | error e =>
    rw [hda] at h
    simp at h
  | ok dst_addr =>
    have hdaeq : dst_addr = vm.RunContext.Ap := by
      unfold RunContext.ComputeDstAddr at hda
      simp only [hdr] at hda
      rw [h0] at hda
      exact AddInt_zero_inv _ _ hda
    subst hdaeq
    simp only [hda] at h ⊢
    cases h0a : vm.RunContext.ComputeOp0Addr i with
    | error e =>
      rw [h0a] at h
      simp at h
    | ok op0_addr =>
      obtain ⟨h0aeq, hap1⟩ := AddInt_one_inv vm.RunContext.Ap op0_addr (by
        unfold RunContext.ComputeOp0Addr at h0a
        simp only [h0r] at h0a
        rw [h1] at h0a
        exact h0a)
      subst h0aeq
      simp only [h0a] at h ⊢
      generalize hRd : (vm.Segments.Memory.Get vm.RunContext.Ap).toOption = dstR
      rw [hRd] at h
      generalize hR0 : (vm.Segments.Memory.Get
        ⟨vm.RunContext.Ap.SegmentIndex, vm.RunContext.Ap.Offset + 1⟩).toOption = op0R
      rw [hR0] at h
      cases h1a : vm.RunContext.ComputeOp1Addr i op0R with
      | error e =>
        rw [h1a] at h
        simp at h
      | ok op1_addr =>
        simp only [h1a] at h ⊢
        generalize hR1 : (vm.Segments.Memory.Get op1_addr).toOption = op1R
        rw [hR1] at h
        cases op0R with
        | some v0 =>
          dsimp only at h ⊢
          cases op1R with
          | none =>
            have hfail := ComputeOp1Deductions_call_fails vm op1_addr i dstR
              (some v0) none hb hop
            rw [hfail] at h
            simp at h
          | some w =>
            dsimp only at h ⊢
            cases hres : vm.ComputeRes i v0 w with
            | error e =>
              rw [hres] at h
              simp at h
            | ok r1 =>
              simp only [hres] at h ⊢
              cases dstR with
              | some d =>
                dsimp only at h ⊢
                simp only [Outcome.ok.injEq] at h
                rw [← h]
                exact ⟨toOption_eq_some _ _ hRd, toOption_eq_some _ _ hR0⟩
              | none =>
                unfold VirtualMachine.DeduceDst at h ⊢
                simp only [hop] at h ⊢
                dsimp only [VirtualMachine.withMemory] at h ⊢
                simp only [Outcome.ok.injEq] at h
                rw [← h]
                dsimp only
                have hnone : assocGet vm.Segments.Memory.data vm.RunContext.Ap = none :=
                  Get_err_none _ _ hs0 (toOption_eq_none _ hRd)
                have hw := Insert_data_of_none vm.Segments.Memory vm.RunContext.Ap
                  (.rel vm.RunContext.Fp) hs0 hs1 hnone
                constructor
                · refine (Get_eq_ok _ _ _ hs0).2 ?_
                  rw [hw.1]
                  exact assocGet_assocSet_self _ _ _
                · refine (Get_eq_ok _ ⟨vm.RunContext.Ap.SegmentIndex, vm.RunContext.Ap.Offset + 1⟩ _ hs0).2 ?_
                  rw [Insert_data_other _ _ _ _ (succ_addr_ne vm.RunContext.Ap)]
                  exact (Get_eq_ok _ ⟨vm.RunContext.Ap.SegmentIndex, vm.RunContext.Ap.Offset + 1⟩ _ hs0).1 (toOption_eq_some _ _ hR0)
        | none =>
          rw [ComputeOp0Deductions_call vm _ i dstR op1R hb hop] at h ⊢
          dsimp only at h ⊢
          have hnone0 : assocGet vm.Segments.Memory.data
              ⟨vm.RunContext.Ap.SegmentIndex, vm.RunContext.Ap.Offset + 1⟩ = none :=
            Get_err_none _ _ hs0 (toOption_eq_none _ hR0)
          have hq := Insert_data_of_none vm.Segments.Memory
            ⟨vm.RunContext.Ap.SegmentIndex, vm.RunContext.Ap.Offset + 1⟩
            (.rel ⟨vm.RunContext.Pc.SegmentIndex,
              (vm.RunContext.Pc.Offset + i.Size) % 2 ^ 64⟩) hs0 hs1 hnone0
          cases op1R with
          | none =>
            have hb1 : (vm.withMemory (vm.Segments.Memory.Insert
                ⟨vm.RunContext.Ap.SegmentIndex, vm.RunContext.Ap.Offset + 1⟩
                (.rel ⟨vm.RunContext.Pc.SegmentIndex,
                  (vm.RunContext.Pc.Offset + i.Size) % 2 ^ 64⟩)).1).BuiltinRunners = [] := hb
            rw [ComputeOp1Deductions_call_fails _ op1_addr i dstR none none hb1 hop] at h
            simp at h
          | some w =>
            dsimp only at h ⊢
            cases hres : (vm.withMemory (vm.Segments.Memory.Insert
                ⟨vm.RunContext.Ap.SegmentIndex, vm.RunContext.Ap.Offset + 1⟩
                (.rel ⟨vm.RunContext.Pc.SegmentIndex,
                  (vm.RunContext.Pc.Offset + i.Size) % 2 ^ 64⟩)).1).ComputeRes i
                (.rel ⟨vm.RunContext.Pc.SegmentIndex,
                  (vm.RunContext.Pc.Offset + i.Size) % 2 ^ 64⟩) w with
            | error e =>
              rw [hres] at h
              simp at h
            | ok r1 =>
              simp only [hres] at h ⊢
              cases dstR with
              | some d =>
                dsimp only [VirtualMachine.withMemory] at h ⊢
                simp only [Outcome.ok.injEq] at h
                rw [← h]
                constructor
                · refine (Get_eq_ok _ _ _ hs0).2 ?_
                  rw [Insert_data_other _ _ _ _ (Ne.symm (succ_addr_ne vm.RunContext.Ap))]
                  exact (Get_eq_ok _ _ _ hs0).1 (toOption_eq_some _ _ hRd)
                · refine (Get_eq_ok _ ⟨vm.RunContext.Ap.SegmentIndex, vm.RunContext.Ap.Offset + 1⟩ _ hs0).2 ?_
                  rw [hq.1]
                  exact assocGet_assocSet_self _ _ _
              | none =>
                unfold VirtualMachine.DeduceDst at h ⊢
                simp only [hop] at h ⊢
                dsimp only [VirtualMachine.withMemory] at h ⊢
                simp only [Outcome.ok.injEq] at h
                rw [← h]
                dsimp only
                have hnoned : assocGet (vm.Segments.Memory.Insert
                    ⟨vm.RunContext.Ap.SegmentIndex, vm.RunContext.Ap.Offset + 1⟩
                    (.rel ⟨vm.RunContext.Pc.SegmentIndex,
                      (vm.RunContext.Pc.Offset + i.Size) % 2 ^ 64⟩)).1.data
                    vm.RunContext.Ap = none := by
                  rw [Insert_data_other _ _ _ _ (Ne.symm (succ_addr_ne vm.RunContext.Ap))]
                  exact Get_err_none _ _ hs0 (toOption_eq_none _ hRd)
                have hs1q : ¬ ((vm.Segments.Memory.Insert
                    ⟨vm.RunContext.Ap.SegmentIndex, vm.RunContext.Ap.Offset + 1⟩
                    (.rel ⟨vm.RunContext.Pc.SegmentIndex,
                      (vm.RunContext.Pc.Offset + i.Size) % 2 ^ 64⟩)).1.num_segments :
                    Int) ≤ vm.RunContext.Ap.SegmentIndex := by
                  rw [Insert_num_segments]
                  exact hs1
                have hp := Insert_data_of_none _ vm.RunContext.Ap
                  (.rel vm.RunContext.Fp) hs0 hs1q hnoned
                constructor
                · refine (Get_eq_ok _ _ _ hs0).2 ?_
                  rw [hp.1]
                  exact assocGet_assocSet_self _ _ _
                · refine (Get_eq_ok _ ⟨vm.RunContext.Ap.SegmentIndex, vm.RunContext.Ap.Offset + 1⟩ _ hs0).2 ?_
                  rw [hp.1, assocGet_assocSet_other _ _ _ _ (succ_addr_ne vm.RunContext.Ap),
                    hq.1]
                  exact assocGet_assocSet_self _ _ _

/-- Claim C4 (amended): after a successful step of a CALL instruction with
the standard operand encoding (dst_register = AP, off0 = 0, op0_register =
AP, off1 = 1), with no builtin runners, ap in an allocated non-temporary
segment and fp not the zero address, memory satisfies memory[ap] = fp and
memory[ap + 1] = pc + size(instruction), where pc, ap and fp are the
register values at the start of the step.  For other dst/op0 selectors or
offsets the assertions constrain dst_addr and op0_addr instead of ap and
ap + 1, and the claim fails. -/
theorem c4_call_memory (vm : VirtualMachine) (i : Instruction)
    (hop : i.Opcode = .Call) (hdr : i.DstReg = .AP) (h0 : i.Off0 = 0)
    (h0r : i.Op0Reg = .AP) (h1 : i.Off1 = 1) (hb : vm.BuiltinRunners = [])
    (hs0 : ¬ vm.RunContext.Ap.SegmentIndex < 0)
    (hs1 : ¬ (vm.Segments.Memory.num_segments : Int) ≤ vm.RunContext.Ap.SegmentIndex)
    (hfp : vm.RunContext.Fp ≠ ⟨0, 0⟩)
    (h : (vm.RunInstruction i).2 = .ok ()) :
    (vm.RunInstruction i).1.Segments.Memory.Get vm.RunContext.Ap =
      .ok (.rel vm.RunContext.Fp) ∧
    (vm.RunInstruction i).1.Segments.Memory.Get
      ⟨vm.RunContext.Ap.SegmentIndex, vm.RunContext.Ap.Offset + 1⟩ =
      .ok (.rel ⟨vm.RunContext.Pc.SegmentIndex,
        vm.RunContext.Pc.Offset + i.Size⟩) := by
  obtain ⟨ops, u, hco, hassert, hmem⟩ := RunInstruction_ok_parts vm i h
  have hpres := ComputeOperands_pres vm i
  have hcall := OpcodeAssertions_call_ok _ i ops u hop hassert
  rw [hpres.1] at hcall
  have hmm := ComputeOperands_call_memory vm i ops hop hdr h0 h0r h1 hb hs0 hs1 hco
  cases hd : ops.Dst with
  | felt f =>
    exfalso
    apply hfp
    rw [hcall.2.2, hd]
    rfl
  | rel r =>
    have hfpr : vm.RunContext.Fp = r := hcall.2.2.trans (by rw [hd]; rfl)
    constructor
    · rw [hmem, hmm.1, hd, hfpr]
    · rw [hmem, hmm.2, hcall.2.1]

/-- Machine for the C4 witness: the spec's CALL scenario (two segments,
pc = (0,0), ap = fp = (1,2), an immediate op1 at (0,1)). -/
def vmC4w : VirtualMachine :=
  ⟨⟨⟨0, 0⟩, ⟨1, 2⟩, ⟨1, 2⟩⟩, 0, ⟨none, ⟨[(⟨0, 1⟩, .felt 4)], 2, [], []⟩⟩,
    [], [], [], []⟩

/-- Standard CALL encoding: dst at ap, op0 at ap + 1, immediate op1. -/
def iC4w : Instruction :=
  ⟨0, 1, 1, .AP, .AP, .Op1SrcImm, .ResOp1, .PcUpdateJumpRel, .ApUpdateAdd2,
    .FpUpdateAPPlus2, .Call⟩

/-- Witness for C4 (amended) at a concrete CALL. -/
theorem c4_call_memory_witness :
    (vmC4w.RunInstruction iC4w).1.Segments.Memory.Get ⟨1, 2⟩ =
      .ok (.rel ⟨1, 2⟩) ∧
    (vmC4w.RunInstruction iC4w).1.Segments.Memory.Get ⟨1, 3⟩ =
      .ok (.rel ⟨0, 2⟩) :=
  c4_call_memory vmC4w iC4w rfl rfl rfl rfl rfl rfl (by decide) (by decide)
    (by decide) (by decide)

/-- Machine for the C4 counterexample: fp-relative dst and op0. -/
def vmC4 : VirtualMachine :=
  ⟨⟨⟨0, 0⟩, ⟨1, 0⟩, ⟨1, 10⟩⟩, 0, ⟨none, ⟨[(⟨1, 0⟩, .felt 7)], 2, [], []⟩⟩,
    [], [], [], []⟩

/-- A decodable CALL whose dst and op0 are fp-relative (dst = [fp],
op0 = [fp + 1]), with op1 read from [ap]. -/
def iC4 : Instruction :=
  ⟨0, 1, 0, .FP, .FP, .Op1SrcAP, .ResOp1, .PcUpdateRegular, .ApUpdateAdd1,
    .FpUpdateAPPlus2, .Call⟩

/-- Counterexample to C4 as stated: this CALL step succeeds (the
assertions pin [fp] = fp and [fp+1] = pc + size), yet memory[ap] holds the
felt 7 — not fp — and memory[ap+1] is unset, because the claim's
quantification over arbitrary dst/op0 selectors is wrong. -/
theorem c4_cex :
    (vmC4.RunInstruction iC4).2 = .ok () ∧
    (vmC4.RunInstruction iC4).1.Segments.Memory.Get vmC4.RunContext.Ap =
      .ok (.felt 7) ∧
    (MaybeRelocatable.felt 7 : MaybeRelocatable) ≠ .rel vmC4.RunContext.Fp ∧
    (vmC4.RunInstruction iC4).1.Segments.Memory.Get ⟨1, 1⟩ =
      .error "Memory Get: Value not found" := by
  exact ⟨by decide, by rfl, by decide, by rfl⟩


